import Mathlib

/-!
Verification of the SAHCscoreBoard snapshot reconciliation pipeline
(scripts/gms_fetcher.py) and the weekend fixture filter (filter.py).

The Python source is shallowly embedded: dictionaries become association
lists with Python-dict semantics (insert replaces in place, new keys are
appended), the filesystem becomes a map from path strings to optional file
contents, raising code returns a pair or an Except value, and the
stateful HTTP client is modelled by an oracle indexed by retry round and
config position (the real client is called at most once per (round,
position) pair within a bulk run, so the oracle loses no generality).
Python truthiness of optional strings (None and the empty string are
falsy) is modelled explicitly by pyOr and truthy.
-/

/-- Python idiom a or b for optional strings: None and the empty string
are falsy, anything else is returned unchanged. -/
def pyOr (o : Option String) (d : String) : String :=
  match o with
  | some s => if s = "" then d else s
  | none => d

/-- Truthy projection of an optional string: some s when s is non-empty. -/
def truthy (o : Option String) : Option String :=
  match o with
  | some s => if s = "" then none else some s
  | none => none

/-- Boolean truthiness test for an optional string. -/
def truthyB (o : Option String) : Bool := (truthy o).isSome

/-! ### Python dictionaries as association lists

Keys are strings; insertion replaces the first matching key in place
(Python dicts keep the original position of an updated key) and appends
new keys at the end; deletion removes the key.  Maps built from the empty
dict by these operations have pairwise distinct keys. -/

/-- Dictionary lookup, first matching key. -/
def dfind {α : Type} : List (String × α) → String → Option α
  | [], _ => none
  | p :: rest, k => if p.1 = k then some p.2 else dfind rest k

/-- Dictionary insert-or-replace, Python dict assignment m[k] = v. -/
def dinsert {α : Type} : List (String × α) → String → α → List (String × α)
  | [], k, v => [(k, v)]
  | p :: rest, k, v => if p.1 = k then (k, v) :: rest else p :: dinsert rest k v

/-- Dictionary key deletion, Python del m[k]. -/
def derase {α : Type} : List (String × α) → String → List (String × α)
  | [], _ => []
  | p :: rest, k => if p.1 = k then rest else p :: derase rest k

/-- The key list of a dictionary, in insertion order. -/
def dkeys {α : Type} (m : List (String × α)) : List String := m.map (fun p => p.1)

/-! ### Data model (section 3 of the spec)

One record type covers successful TeamRecords, fallback records and
ErrorRecords: the Python code stores plain dicts in a single list, so
absent fields are modelled as none. -/

/-- Stats block of a team record; the upstream feed reports free-form
strings, absent cells are none. -/
structure Stats where
  played : Option String := none
  won : Option String := none
  drawn : Option String := none
  lost : Option String := none
  goalsFor : Option String := none
  goalsAgainst : Option String := none
  goalDiff : Option String := none
  points : Option String := none
  ppg : Option String := none
deriving DecidableEq

/-- Competition block of a team record. -/
structure Competition where
  id : Option String := none
  label : Option String := none
deriving DecidableEq

/-- Meta block: snapshot date and fallback provenance markers. -/
structure RecordMeta where
  snapshotDate : Option String := none
  source : Option String := none
  fallbackSnapshot : Option String := none
  fallbackAppliedAt : Option String := none
deriving DecidableEq

/-- One output record: a successful TeamRecord (error = none), a
fallback-sourced TeamRecord (meta.source = some "fallback") or an
ErrorRecord (error = some message, compId set, competition/stats absent). -/
structure SnapRecord where
  name : Option String := none
  teamId : Option String := none
  teamDisplay : Option String := none
  competition : Option Competition := none
  stats : Option Stats := none
  form : List String := []
  compId : Option String := none
  error : Option String := none
  meta : Option RecordMeta := none
deriving DecidableEq

/-- One config entry from teamCompIDs.json. -/
structure Entry where
  name : Option String := none
  teamId : Option String := none
  compId : Option String := none
  compLabel : Option String := none
deriving DecidableEq

/-- Parsed team summary as returned by GMSClient.get_team_summary. -/
structure Summary where
  teamName : Option String := none
  played : Option String := none
  won : Option String := none
  drawn : Option String := none
  lost : Option String := none
  goalsFor : Option String := none
  goalsAgainst : Option String := none
  goalDiff : Option String := none
  points : Option String := none
  ppg : Option String := none
  form : List String := []
deriving DecidableEq

/-! ### Filesystem model and rotate_snapshots -/

/-- Abstract filesystem: path string to optional file contents. -/
def FileMap := String → Option String

/-- Path.replace src -> dst: an atomic rename that overwrites dst and
removes src. -/
def fsRename (fs : FileMap) (src dst : String) : FileMap :=
  fun p => if p = dst then fs src else if p = src then none else fs p

/-- rotate_snapshots from gms_fetcher.py.  Returns the filesystem after
the call together with the raised exception message, if any: the
existence check runs before any rename, so on failure the filesystem is
returned untouched.  When the new snapshot exists, current (if present)
is renamed to previous first, and only then is new renamed to current. -/
def rotate_snapshots (fs : FileMap) (new_snapshot current_snapshot previous_snapshot : String) :
    FileMap × Option String :=
  if (fs new_snapshot).isNone then
    (fs, some ("New snapshot " ++ new_snapshot ++ " does not exist."))
  else
    let fs1 := if (fs current_snapshot).isSome then
      fsRename fs current_snapshot previous_snapshot else fs
    (fsRename fs1 new_snapshot current_snapshot, none)

/-! ### Builders and per-entry fetch -/

/-- Python str.lower(), over the character list (the labels compared in
this codebase are ASCII). -/
def strLower (s : String) : String := String.mk (s.toList.map Char.toLower)

/-- Python str.strip(): drop whitespace from both ends. -/
def strTrim (s : String) : String :=
  String.mk (((s.toList.dropWhile Char.isWhitespace).reverse.dropWhile
    Char.isWhitespace).reverse)

/-- Python s.startswith(p), over character lists. -/
def strStarts (s p : String) : Bool := List.isPrefixOf p.toList s.toList

/-- Python s[n:], over character lists (Python slices by code point). -/
def strDropN (s : String) (n : Nat) : String := String.mk (s.toList.drop n)

/-- normalize_comp_label: strip the two known gender prefixes from a
competition label; None and the empty string are returned unchanged. -/
def normalize_comp_label (label : Option String) : Option String :=
  match label with
  | none => none
  | some s =>
    if s = "" then some s
    else if strStarts s "East Open - Men\x27s " then
      some (strDropN s "East Open - Men\x27s ".toList.length)
    else if strStarts s "East Women\x27s " then
      some (strDropN s "East Women\x27s ".toList.length)
    else some s

/-- make_entry_key: composite key teamId::compId with positional
placeholders for missing identifiers. -/
def make_entry_key (entry : Entry) (index : Nat) : String :=
  pyOr entry.teamId ("team-" ++ toString index) ++ "::" ++
    pyOr entry.compId ("comp-" ++ toString index)

/-- build_error_record from gms_fetcher.py. -/
def build_error_record (entry : Entry) (message : String) : SnapRecord :=
  { name := some (pyOr entry.name "Unknown Team")
    teamId := some (pyOr entry.teamId "")
    compId := some (pyOr entry.compId "")
    error := some message }

/-- build_team_record from gms_fetcher.py. -/
def build_team_record (entry : Entry) (summary : Summary) : SnapRecord :=
  let name := pyOr entry.name (pyOr summary.teamName "Unknown Team")
  { name := some name
    teamId := entry.teamId
    teamDisplay := some (pyOr summary.teamName name)
    competition := some { id := entry.compId, label := normalize_comp_label entry.compLabel }
    stats := some { played := summary.played, won := summary.won, drawn := summary.drawn
                    lost := summary.lost, goalsFor := summary.goalsFor
                    goalsAgainst := summary.goalsAgainst, goalDiff := summary.goalDiff
                    points := summary.points, ppg := summary.ppg }
    form := summary.form }

/-- The upstream fetch, abstracted: the real GMSClient.get_team_summary is
stateful IO, but within one bulk run it is called at most once per pair of
retry round (0 = initial pass, 1 and 2 = the two retry rounds) and config
position, so a function of (round, position, teamId) captures every
possible behaviour.  An error value is the message of the raised
exception. -/
def Oracle : Type := Nat → Nat → String → Except String Summary

/-- fetch_team_record from gms_fetcher.py: fails fast when teamId or
compId is falsy (never consulting the client), otherwise fetches the
summary, applies the single documented alias substitution, and builds the
record; exceptions from the fetch/parse pipeline become a textual error
tagged with the display name. -/
def fetch_team_record (oracle : Oracle) (round : Nat) (entry : Entry) (index : Nat) :
    Except String SnapRecord :=
  let name := pyOr entry.name ("Team " ++ toString index)
  match truthy entry.teamId, truthy entry.compId with
  | some teamId, some _ =>
    (match oracle round index teamId with
     | Except.error exc => Except.error (name ++ ": " ++ exc)
     | Except.ok summary =>
       let tn := strTrim (pyOr summary.teamName "")
       let summary2 := if strLower tn = "st albans (m)" then
         { summary with teamName := some "St Albans 1" } else summary
       Except.ok (build_team_record entry summary2))
  | _, _ => Except.error "Missing teamId or compId"

/-- deep_copy_record is a JSON round trip; at the level of immutable
record values it is the identity. -/
def deep_copy_record (record : SnapRecord) : SnapRecord := record

/-- attach_snapshot_meta: when the snapshot date is truthy, set
meta.snapshotDate, creating the meta block if absent. -/
def attach_snapshot_meta (record : SnapRecord) (snapshot_date : Option String) : SnapRecord :=
  match truthy snapshot_date with
  | none => record
  | some d =>
    { record with meta := some { record.meta.getD {} with snapshotDate := some d } }

/-! ### Bulk fetch orchestrator (command_bulk_team_data)

The procedure keeps two dictionaries keyed by composite key: records_by_key
for successes and errors_by_key for failures, plus the ordered list of
entries used to assemble the final output. -/

/-- Failure-map value: the config entry, its 1-based position and the
latest error message. -/
structure ErrCtx where
  entry : Entry
  index : Nat
  message : String
deriving DecidableEq

/-- The success and failure maps of one bulk run. -/
structure Maps where
  records : List (String × SnapRecord)
  errors : List (String × ErrCtx)
deriving DecidableEq

/-- One item of the ordered entry list retained for output assembly. -/
structure OrderedItem where
  key : String
  entry : Entry
  index : Nat
deriving DecidableEq

/-- One fetch attempt followed by the snapshot-date stamping the
orchestrator applies to every success. -/
def roundFetch (oracle : Oracle) (sd : Option String) (round : Nat) (entry : Entry)
    (index : Nat) : Except String SnapRecord :=
  match fetch_team_record oracle round entry index with
  | Except.ok r => Except.ok (attach_snapshot_meta r sd)
  | Except.error m => Except.error m

/-- Initial pass, body of the first for loop of command_bulk_team_data:
one fetch per entry, partitioning into the success and failure maps. -/
def initStep (oracle : Oracle) (sd : Option String) (st : Maps) (ie : Nat × Entry) : Maps :=
  let key := make_entry_key ie.2 ie.1
  match roundFetch oracle sd 0 ie.2 ie.1 with
  | Except.ok rec => { st with records := dinsert st.records key rec }
  | Except.error m => { st with errors := dinsert st.errors key { entry := ie.2, index := ie.1, message := m } }

/-- The ordered entry list (key, entry, 1-based index), built alongside
the initial pass. -/
def orderedOf (teams : List Entry) : List OrderedItem :=
  (teams.enumFrom 1).map (fun ie => { key := make_entry_key ie.2 ie.1, entry := ie.2, index := ie.1 })

/-- The composite keys of a config list in order, as synthesized by the
initial pass. -/
def orderedKeys (teams : List Entry) : List String :=
  (orderedOf teams).map (fun it => it.key)

/-- State after the initial pass. -/
def initialMaps (oracle : Oracle) (sd : Option String) (teams : List Entry) : Maps :=
  (teams.enumFrom 1).foldl (initStep oracle sd) { records := [], errors := [] }

/-- Body of one retry round for one still-failing key: re-attempt the
build; on success move the record into the success map, otherwise update
the stored message. -/
def retryStep (oracle : Oracle) (round : Nat) (sd : Option String) (st : Maps)
    (key : String) : Maps :=
  match dfind st.errors key with
  | none => st
  | some ctx =>
    match roundFetch oracle sd round ctx.entry ctx.index with
    | Except.ok rec =>
      { records := dinsert st.records key rec, errors := derase st.errors key }
    | Except.error m =>
      { st with errors := dinsert st.errors key { ctx with message := m } }

/-- One retry round: iterate over the keys pending at the start of the
round (Python snapshots list(errors_by_key.keys()) first). -/
def retryRound (oracle : Oracle) (round : Nat) (sd : Option String) (st : Maps) : Maps :=
  (dkeys st.errors).foldl (retryStep oracle round sd) st

/-- State after the VALIDATION_MAX_RETRIES = 2 retry rounds.  A round with
an empty failure map is a no-op, which renders the early break of the
Python loop. -/
def mapsAfterRetries (oracle : Oracle) (sd : Option String) (teams : List Entry) : Maps :=
  retryRound oracle 2 sd (retryRound oracle 1 sd (initialMaps oracle sd teams))

/-- load_fallback_map restricted to a well-formed snapshot list: index the
records by truthy teamId, later records overwriting earlier ones.  (The
dynamic-typing behaviour of load_fallback_map on arbitrary JSON is
modelled separately below.) -/
def fallbackMapOf (items : List SnapRecord) : List (String × SnapRecord) :=
  items.foldl (fun acc item =>
    match truthy item.teamId with
    | some tid => dinsert acc tid item
    | none => acc) []

/-- Deep-copy a prior record and stamp the fallback provenance markers,
then apply the snapshot-date stamping. -/
def stampFallback (prior : SnapRecord) (publishPath now : String) (sd : Option String) :
    SnapRecord :=
  let copy := deep_copy_record prior
  let stamped := { copy with
    meta := some { copy.meta.getD {} with
      source := some "fallback"
      fallbackSnapshot := some publishPath
      fallbackAppliedAt := some now } }
  attach_snapshot_meta stamped sd

/-- Body of the fallback loop for one still-failing key: look up the truthy teamId
of the stored entry in the fallback map; on a hit move the stamped copy into
the success map and drop the failure. -/
def fbStep (fmap : List (String × SnapRecord)) (publishPath now : String) (sd : Option String)
    (st : Maps) (key : String) : Maps :=
  match dfind st.errors key with
  | none => st
  | some ctx =>
    match truthy ctx.entry.teamId with
    | none => st
    | some tid =>
      match dfind fmap tid with
      | none => st
      | some prior =>
        { records := dinsert st.records key (stampFallback prior publishPath now sd)
          errors := derase st.errors key }

/-- The fallback phase.  publish is none when the published snapshot path
does not exist, some none when the file exists but cannot be parsed as
JSON (load_fallback_map then yields the empty map), and some (some items)
when it parses.  The phase runs only when failures remain, the path
exists and the fallback map is non-empty. -/
def fallbackPhase (publish : Option (Option (List SnapRecord))) (publishPath now : String)
    (sd : Option String) (st : Maps) : Maps :=
  match publish with
  | none => st
  | some parsed =>
    if st.errors.isEmpty then st
    else
      let fmap := fallbackMapOf (parsed.getD [])
      if fmap.isEmpty then st
      else (dkeys st.errors).foldl (fbStep fmap publishPath now sd) st

/-- State after fallback resolution; now is the timestamp taken for
meta.fallbackAppliedAt. -/
def finalMaps (oracle : Oracle) (teams : List Entry) (publish : Option (Option (List SnapRecord)))
    (publishPath now : String) (sd : Option String) : Maps :=
  fallbackPhase publish publishPath now sd (mapsAfterRetries oracle sd teams)

/-- Final output assembly: iterate the ordered entries and select, per
key, the success record else an ErrorRecord with the stored (or default)
message. -/
def assemble (ordered : List OrderedItem) (st : Maps) : List SnapRecord :=
  ordered.map (fun item =>
    match dfind st.records item.key with
    | some r => r
    | none =>
      build_error_record item.entry
        (match dfind st.errors item.key with
         | some ctx => ctx.message
         | none => "Unknown error"))

/-- The full ordered result list of one bulk run. -/
def bulkResults (oracle : Oracle) (teams : List Entry) (publish : Option (Option (List SnapRecord)))
    (publishPath now : String) (sd : Option String) : List SnapRecord :=
  assemble (orderedOf teams) (finalMaps oracle teams publish publishPath now sd)

/-- The rotation tail of command_bulk_team_data: with rotation requested,
rotate_snapshots runs only when the failure map is empty after fallback
resolution.  The Bool records whether rotate_snapshots was invoked. -/
def bulkRotationStep (rotateFlag : Bool) (st : Maps) (fs : FileMap)
    (newP curP prevP : String) : FileMap × Bool :=
  if rotateFlag then
    if !st.errors.isEmpty then (fs, false)
    else ((rotate_snapshots fs newP curP prevP).1, true)
  else (fs, false)

/-! ### The per-entry outcome

Under distinct composite keys the stateful pipeline treats every entry
independently; producedFor is that per-entry outcome: the earliest
succeeding round, else the fallback substitution, else an ErrorRecord
carrying the last failure message. -/

/-- Outcome of fallback resolution for one entry that failed every round
with final message lastMessage. -/
def fallbackFor (publish : Option (Option (List SnapRecord))) (publishPath now : String)
    (sd : Option String) (entry : Entry) (lastMessage : String) : SnapRecord :=
  match publish with
  | none => build_error_record entry lastMessage
  | some parsed =>
    let fmap := fallbackMapOf (parsed.getD [])
    if fmap.isEmpty then build_error_record entry lastMessage
    else
      match truthy entry.teamId with
      | none => build_error_record entry lastMessage
      | some tid =>
        match dfind fmap tid with
        | none => build_error_record entry lastMessage
        | some prior => stampFallback prior publishPath now sd

/-- The record the pipeline produces for one config entry, assuming its
composite key is not shared with another entry. -/
def producedFor (oracle : Oracle) (publish : Option (Option (List SnapRecord)))
    (publishPath now : String) (sd : Option String) (entry : Entry) (index : Nat) : SnapRecord :=
  match roundFetch oracle sd 0 entry index with
  | Except.ok r => r
  | Except.error _ =>
    match roundFetch oracle sd 1 entry index with
    | Except.ok r => r
    | Except.error _ =>
      match roundFetch oracle sd 2 entry index with
      | Except.ok r => r
      | Except.error m2 => fallbackFor publish publishPath now sd entry m2

/-! ### Snapshot validation (analyze_snapshot / command_validate_snapshots) -/

/-- Display name used in validation issue messages:
entry.get("name") or entry.get("teamId") or "Unknown". -/
def snap_display_name (r : SnapRecord) : String := pyOr r.name (pyOr r.teamId "Unknown")

/-- analyze_snapshot team_ids: the truthy teamIds, in order, before set
formation. -/
def snap_team_ids (records : List SnapRecord) : List String :=
  records.filterMap (fun r => truthy r.teamId)

/-- analyze_snapshot errors: the error-tagged records. -/
def snap_errors (records : List SnapRecord) : List SnapRecord :=
  records.filter (fun r => truthyB r.error)

/-- analyze_snapshot missing_ppg: non-error records whose stats lack a
truthy ppg. -/
def snap_missing_ppg (records : List SnapRecord) : List SnapRecord :=
  records.filter (fun r => !truthyB (r.stats.bind Stats.ppg) && !truthyB r.error)

/-- The count guard if expected_count and count != expected_count: an
expected count of None or 0 is falsy and skips the check. -/
def countMismatch (expected_count : Option Nat) (count : Nat) : Bool :=
  match expected_count with
  | none => false
  | some n => if n = 0 then false else count != n

/-- Insert a string into a sorted list of strings. -/
def insortStr (x : String) : List String → List String
  | [] => [x]
  | y :: ys => if x ≤ y then x :: y :: ys else y :: insortStr x ys

/-- Python sorted on a list of strings (insertion sort; on lists of
distinct strings this agrees with any sort). -/
def sortedStrings : List String → List String
  | [] => []
  | x :: xs => insortStr x (sortedStrings xs)

/-- Set difference set(a) - set(b) represented as the deduplicated list of
elements of a not in b; its length is the set cardinality. -/
def setDiff (a b : List String) : List String :=
  a.dedup.filter (fun x => !(b.contains x))

/-- Python ", ".join(l[:5]). -/
def joinTop5 (l : List String) : String := String.intercalate ", " (l.take 5)

/-- Issue message for a current-snapshot count mismatch. -/
def msg_current_count (count n : Nat) : String :=
  "Current snapshot count " ++ toString count ++ " != expected " ++ toString n

/-- Issue message for error entries in the current snapshot. -/
def msg_errors (entries : List SnapRecord) : String :=
  "Current snapshot has " ++ toString entries.length ++ " error entrie(s): " ++
    joinTop5 (entries.map snap_display_name)

/-- Issue message for missing ppg stats. -/
def msg_missing_ppg (entries : List SnapRecord) : String :=
  "Current snapshot missing PPG for " ++ toString entries.length ++ " team(s): " ++
    joinTop5 (entries.map snap_display_name)

/-- Issue message for a previous-snapshot count mismatch. -/
def msg_prev_count (count n : Nat) : String :=
  "Previous snapshot count " ++ toString count ++ " != expected " ++ toString n

/-- Issue message for teamIds present in the previous snapshot but
missing from the current one. -/
def msg_missing_from_current (ids : List String) : String :=
  "Current snapshot missing " ++ toString ids.length ++
    " teamId(s) found in previous snapshot: " ++ joinTop5 (sortedStrings ids)

/-- Issue message for teamIds present in the current snapshot but missing
from the previous one. -/
def msg_missing_from_previous (ids : List String) : String :=
  "Previous snapshot missing " ++ toString ids.length ++
    " teamId(s) present now: " ++ joinTop5 (sortedStrings ids)

/-- command_validate_snapshots as the list of collected issues, in report
order.  previous is none when no previous path was supplied, some none
when the path was supplied but the file is missing, and some (some
records) when it exists.  The caller signals failure exactly when the
list is non-empty. -/
def command_validate_snapshots (current_records : List SnapRecord)
    (previous : Option (Option (List SnapRecord))) (previousPath : String)
    (expected_count : Option Nat) : List String :=
  (if countMismatch expected_count current_records.length then
    [msg_current_count current_records.length (expected_count.getD 0)] else [])
  ++ (if !(snap_errors current_records).isEmpty then
    [msg_errors (snap_errors current_records)] else [])
  ++ (if !(snap_missing_ppg current_records).isEmpty then
    [msg_missing_ppg (snap_missing_ppg current_records)] else [])
  ++ (match previous with
    | none => []
    | some none => ["Previous snapshot not found at " ++ previousPath]
    | some (some prev_records) =>
      (if countMismatch expected_count prev_records.length then
        [msg_prev_count prev_records.length (expected_count.getD 0)] else [])
      ++ (if !(setDiff (snap_team_ids prev_records) (snap_team_ids current_records)).isEmpty then
        [msg_missing_from_current (setDiff (snap_team_ids prev_records) (snap_team_ids current_records))] else [])
      ++ (if !(setDiff (snap_team_ids current_records) (snap_team_ids prev_records)).isEmpty then
        [msg_missing_from_previous (setDiff (snap_team_ids current_records) (snap_team_ids prev_records))] else []))

/-- Process exit code of the validation command: raise SystemExit(1)
exactly when issues were collected. -/
def validationExit (issues : List String) : Nat := if issues.isEmpty then 0 else 1

/-! ### Rate-limited fetch client (GMSClient._get) -/

/-- One upstream HTTP response: status code and optional Retry-After
header. -/
structure HttpResponse where
  status : Nat
  retryAfter : Option String
deriving DecidableEq

/-- Python retry_after.isdigit() followed by int(retry_after): some n
exactly when the string is non-empty and all characters are digits. -/
def pyParseDigits (s : String) : Option Nat :=
  if s.toList ≠ [] ∧ s.toList.all (fun c => c.isDigit) then
    some (s.toList.foldl (fun n c => n * 10 + (c.toNat - 48)) 0)
  else none

/-- Backoff delay in milliseconds for a 429 at the given 1-based attempt:
an all-digit Retry-After header value (seconds) wins, else exponential
backoff rate_limit_ms * 2 ^ attempt. -/
def backoff_delay (rate_limit_ms attempt : Nat) (retryAfter : Option String) : Nat :=
  match retryAfter with
  | some s =>
    (match pyParseDigits s with
     | some n => n * 1000
     | none => rate_limit_ms * 2 ^ attempt)
  | none => rate_limit_ms * 2 ^ attempt

/-- requests raise_for_status raises exactly for statuses in [400, 600). -/
def isHttpErrorStatus (s : Nat) : Bool := 400 ≤ s && s < 600

/-- Observable outcome of GMSClient._get: the attempt that finished the
call and every next-allowed-window delay scheduled along the way (the
backoff of each 429 plus, on success, the base rate-limit window). -/
inductive GetResult where
  | success (attempt : Nat) (scheduled : List Nat)
  | httpError (status : Nat) (attempt : Nat) (scheduled : List Nat)
  | exhausted (scheduled : List Nat)
deriving DecidableEq

/-- The attempt loop of GMSClient._get.  remaining counts attempts left
including the current one; remaining = 0 renders the unreachable trailing
RuntimeError.  On a 429 the backoff delay is scheduled, then the
underlying HTTP error is surfaced if this was the last attempt, else the
loop retries; a non-429 error status is surfaced immediately; otherwise
the base window is scheduled and the call succeeds. -/
def get_go (responses : Nat → HttpResponse) (rate_limit_ms : Nat) :
    Nat → Nat → List Nat → GetResult
  | _, 0, sched => GetResult.exhausted sched
  | attempt, remaining + 1, sched =>
    let r := responses attempt
    if r.status = 429 then
      let d := backoff_delay rate_limit_ms attempt r.retryAfter
      if remaining = 0 then GetResult.httpError 429 attempt (sched ++ [d])
      else get_go responses rate_limit_ms (attempt + 1) remaining (sched ++ [d])
    else if isHttpErrorStatus r.status then GetResult.httpError r.status attempt sched
    else GetResult.success attempt (sched ++ [rate_limit_ms])

/-- GMSClient._get with attempts 1 .. retry_limit; the client defaults
are rate_limit_ms = 1200 and retry_limit = 4. -/
def GMSClient_get (responses : Nat → HttpResponse) (rate_limit_ms retry_limit : Nat) :
    GetResult :=
  get_go responses rate_limit_ms 1 retry_limit []

/-- The delays scheduled for the 429 responses at attempts 1 .. n. -/
def backoffList (responses : Nat → HttpResponse) (rate_limit_ms n : Nat) : List Nat :=
  (List.range' 1 n).map (fun a => backoff_delay rate_limit_ms a (responses a).retryAfter)

/-! ### Weekend fixture filter (filter.py) -/

/-- UTC instants in whole minutes since 1970-01-01T00:00Z (a Thursday).
All quantities in the filter are whole hours, so minute precision is
exact. -/
abbrev Minutes := Nat

/-- Python date.weekday(): Monday = 0 .. Sunday = 6. -/
def weekdayOf (t : Minutes) : Nat := (t / 1440 + 3) % 7

/-- datetime.replace(hour=0, minute=0, second=0, microsecond=0). -/
def floorDay (t : Minutes) : Minutes := t / 1440 * 1440

/-- One extracted fixture, with the fields the weekend filter inspects;
date is the fixture datetime normalized to UTC. -/
structure Fixture where
  date : Minutes
  division : Option String := none
  home_team : Option String := none
  away_team : Option String := none
  kickoff : Option String := none
deriving DecidableEq

/-- Substring search over character lists: token occurs at some
position. -/
def containsChars (token : List Char) : List Char → Bool
  | [] => token.isEmpty
  | c :: rest => List.isPrefixOf token (c :: rest) || containsChars token rest

/-- Python substring containment token in hay. -/
def containsToken (hay token : String) : Bool := containsChars token.toList hay.toList

/-- is_kids_fixture from filter.py: null division, or either team name
containing u18 or u16 case-insensitively. -/
def is_kids_fixture (f : Fixture) : Bool :=
  let division_is_null := f.division.isNone
  let home := strLower (pyOr f.home_team "")
  let away := strLower (pyOr f.away_team "")
  let contains_age_band := containsToken home "u18" || containsToken home "u16" ||
    containsToken away "u18" || containsToken away "u16"
  division_is_null || contains_age_band

/-- has_tbc_kickoff from filter.py: kickoff present and equal to TBC
after strip/lower. -/
def has_tbc_kickoff (f : Fixture) : Bool :=
  match f.kickoff with
  | none => false
  | some k => strLower (strTrim k) == "tbc"

/-- The weekend window of filter_weekend_fixtures: anchor Saturday 00:00
UTC (the previous day on a Sunday, today on a Saturday, the upcoming
Saturday on Monday-Friday), Monday 00:00 as the far edge, both expanded
by two hours.  Returned as (range_start, range_end). -/
def weekend_window (today : Minutes) : Minutes × Minutes :=
  let saturday_utc :=
    if weekdayOf today = 6 then floorDay (today - 1440)
    else if weekdayOf today = 5 then floorDay today
    else floorDay (today + 1440 * ((5 + 7 - weekdayOf today) % 7))
  let monday_utc := saturday_utc + 2 * 1440
  (saturday_utc - 120, monday_utc + 120)

/-- filter_weekend_fixtures: drop kids fixtures and TBC kickoffs, keep
fixtures with range_start <= date < range_end. -/
def filter_weekend_fixtures (today : Minutes) (fixtures : List Fixture) : List Fixture :=
  let w := weekend_window today
  fixtures.filter (fun f =>
    !is_kids_fixture f && !has_tbc_kickoff f &&
      (decide (w.1 ≤ f.date) && decide (f.date < w.2)))

/-! ### load_fallback_map on arbitrary JSON

The function catches only the json.load exception; iterating the parsed
value and calling .get on its elements can still raise (TypeError for
non-iterable values, AttributeError for non-dict elements), so the
dynamic behaviour is modelled over a small JSON value type with the
exception carried in an Except. -/

/-- JSON values (floats omitted; they play no role here). -/
inductive JVal where
  | null : JVal
  | bool (b : Bool) : JVal
  | num (n : Int) : JVal
  | str (s : String) : JVal
  | arr (elements : List JVal) : JVal
  | obj (fields : List (String × JVal)) : JVal

mutual

/-- Structural equality of JSON values (Python ==). -/
def jeq : JVal → JVal → Bool
  | JVal.null, JVal.null => true
  | JVal.bool a, JVal.bool b => a == b
  | JVal.num a, JVal.num b => a == b
  | JVal.str a, JVal.str b => a == b
  | JVal.arr a, JVal.arr b => jeqList a b
  | JVal.obj a, JVal.obj b => jeqObj a b
  | _, _ => false

/-- Elementwise equality of JSON arrays. -/
def jeqList : List JVal → List JVal → Bool
  | [], [] => true
  | x :: xs, y :: ys => jeq x y && jeqList xs ys
  | _, _ => false

/-- Fieldwise equality of JSON objects (order-sensitive; exact equality
of parsed files, which suffices for dictionary keys here). -/
def jeqObj : List (String × JVal) → List (String × JVal) → Bool
  | [], [] => true
  | x :: xs, y :: ys => (x.1 == y.1 && jeq x.2 y.2) && jeqObj xs ys
  | _, _ => false

end

/-- Python truthiness of a JSON value. -/
def jtruthy : JVal → Bool
  | JVal.null => false
  | JVal.bool b => b
  | JVal.num n => n != 0
  | JVal.str s => s != ""
  | JVal.arr xs => !xs.isEmpty
  | JVal.obj fs => !fs.isEmpty

/-- dict.get on a JSON object, first matching field. -/
def jlookup : List (String × JVal) → String → Option JVal
  | [], _ => none
  | f :: rest, k => if f.1 = k then some f.2 else jlookup rest k

/-- Python dict assignment keyed by arbitrary JSON values. -/
def jinsert : List (JVal × JVal) → JVal → JVal → List (JVal × JVal)
  | [], k, v => [(k, v)]
  | p :: rest, k, v => if jeq p.1 k then (k, v) :: rest else p :: jinsert rest k v

/-- Python iteration over a JSON value: arrays yield elements, dicts
yield their keys, strings yield one-character strings, and everything
else raises TypeError. -/
def pyIter : JVal → Except String (List JVal)
  | JVal.arr xs => Except.ok xs
  | JVal.obj fs => Except.ok (fs.map (fun f => JVal.str f.1))
  | JVal.str s => Except.ok (s.toList.map (fun c => JVal.str (String.singleton c)))
  | JVal.num _ => Except.error "TypeError: object is not iterable"
  | JVal.bool _ => Except.error "TypeError: object is not iterable"
  | JVal.null => Except.error "TypeError: object is not iterable"

/-- The indexing loop of load_fallback_map: item.get("teamId") raises
AttributeError on non-dict items; truthy teamIds key the item into the
fallback map. -/
def loadItems : List JVal → List (JVal × JVal) → Except String (List (JVal × JVal))
  | [], acc => Except.ok acc
  | item :: rest, acc =>
    match item with
    | JVal.obj fields =>
      let tid := (jlookup fields "teamId").getD JVal.null
      if jtruthy tid then loadItems rest (jinsert acc tid item)
      else loadItems rest acc
    | _ => Except.error "AttributeError: object has no attribute get"

/-- load_fallback_map from gms_fetcher.py over arbitrary file states:
none = path does not exist (empty map), some none = the file exists but
json.load raises (caught, empty map), some (some v) = the file parses to
v, which is then indexed; only this last step can raise. -/
def load_fallback_map (file : Option (Option JVal)) : Except String (List (JVal × JVal)) :=
  match file with
  | none => Except.ok []
  | some none => Except.ok []
  | some (some data) =>
    match pyIter data with
    | Except.error e => Except.error e
    | Except.ok items => loadItems items []

/-- A JSON value is an object. -/
def isJObj : JVal → Bool
  | JVal.obj _ => true
  | _ => false

/-! ### Per-key projections of the orchestrator state

Every mutation of the two maps touches exactly one composite key, so the
pipeline is analysed through its projection to one key: the pair of the
success-map and failure-map values at that key. -/

/-- Projection of the orchestrator state to one composite key. -/
def projm (j : String) (st : Maps) : Option SnapRecord × Option ErrCtx :=
  (dfind st.records j, dfind st.errors j)

/-- Invariant: the failure map has pairwise distinct keys (true of every
Python dict). -/
def errNodup (st : Maps) : Prop := (dkeys st.errors).Nodup

/-- Effect of the initial pass on the projection at the key of the
processed entry. -/
def initProj (oracle : Oracle) (sd : Option String) (ie : Nat × Entry)
    (pr : Option SnapRecord × Option ErrCtx) : Option SnapRecord × Option ErrCtx :=
  match roundFetch oracle sd 0 ie.2 ie.1 with
  | Except.ok rec => (some rec, pr.2)
  | Except.error m => (pr.1, some { entry := ie.2, index := ie.1, message := m })

/-- Effect of one retry round on the projection at one key. -/
def retryProj (oracle : Oracle) (round : Nat) (sd : Option String)
    (pr : Option SnapRecord × Option ErrCtx) : Option SnapRecord × Option ErrCtx :=
  match pr.2 with
  | none => pr
  | some ctx =>
    match roundFetch oracle sd round ctx.entry ctx.index with
    | Except.ok rec => (some rec, none)
    | Except.error m => (pr.1, some { ctx with message := m })

/-- Effect of the fallback loop body on the projection at one key. -/
def fbStepProj (fmap : List (String × SnapRecord)) (publishPath now : String)
    (sd : Option String) (pr : Option SnapRecord × Option ErrCtx) :
    Option SnapRecord × Option ErrCtx :=
  match pr.2 with
  | none => pr
  | some ctx =>
    match truthy ctx.entry.teamId with
    | none => pr
    | some tid =>
      match dfind fmap tid with
      | none => pr
      | some prior => (some (stampFallback prior publishPath now sd), none)

/-- Effect of the whole fallback phase on the projection at one key. -/
def fbProj (publish : Option (Option (List SnapRecord))) (publishPath now : String)
    (sd : Option String) (pr : Option SnapRecord × Option ErrCtx) :
    Option SnapRecord × Option ErrCtx :=
  match publish with
  | none => pr
  | some parsed =>
    let fmap := fallbackMapOf (parsed.getD [])
    if fmap.isEmpty then pr else fbStepProj fmap publishPath now sd pr

/-! ### Concrete inputs used by witnesses and counterexamples -/

/-- An upstream that always succeeds with an empty summary. -/
def oracleOkBlank : Oracle := fun _ _ _ => Except.ok {}

/-- An upstream that always raises. -/
def oracleFail : Oracle := fun _ _ _ => Except.error "network down"

/-- First of two config entries sharing teamId t and compId c. -/
def entryDupA : Entry := { name := some "A", teamId := some "t", compId := some "c" }

/-- Second of two config entries sharing teamId t and compId c. -/
def entryDupB : Entry := { name := some "B", teamId := some "t", compId := some "c" }

/-- A complete config entry for team t2. -/
def entryTeam2 : Entry := { name := some "Team2", teamId := some "t2", compId := some "c2" }

/-- A prior published record for teamId t2. -/
def priorTeam2 : SnapRecord :=
  { name := some "Team2", teamId := some "t2"
    stats := some { played := some "9", points := some "18" } }

/-- A config entry with a teamId but no compId. -/
def entryNoComp : Entry := { name := some "X", teamId := some "t1" }

/-- A prior published record for teamId t1. -/
def priorTeam1 : SnapRecord :=
  { name := some "Old X", teamId := some "t1", stats := some { ppg := some "2.0" } }

/-- A config entry with neither identifier. -/
def entryNoIds : Entry := { name := some "X" }

/-- An empty filesystem. -/
def fsEmpty : FileMap := fun _ => none

/-- A filesystem holding only the current snapshot. -/
def fsCurOnly : FileMap := fun p => if p = "cur.json" then some "C" else none

/-- A filesystem holding the staged new snapshot and the current one. -/
def fsNewCur : FileMap :=
  fun p => if p = "new.json" then some "N" else if p = "cur.json" then some "C" else none

/-- An upstream returning 429 on every attempt. -/
def respAll429 : Nat → HttpResponse := fun _ => { status := 429, retryAfter := none }

/-- An upstream returning 429 with Retry-After 7 on attempt 1 and a 500
on attempt 2. -/
def respErrorAt2 : Nat → HttpResponse := fun a =>
  if a = 2 then { status := 500, retryAfter := none }
  else { status := 429, retryAfter := some "7" }

/-- An upstream returning 429 twice and then succeeding on attempt 3. -/
def respOkAt3 : Nat → HttpResponse := fun a =>
  if a = 3 then { status := 200, retryAfter := none }
  else { status := 429, retryAfter := none }

/-- A snapshot record for one teamId with a ppg stat. -/
def recTeam (tid : String) : SnapRecord :=
  { teamId := some tid, stats := some { ppg := some "1" } }

/-- Sunday 2025-11-30T10:00:00Z in minutes since the epoch
(day 20422 since 1970-01-01). -/
def sundayNov30at10 : Minutes := 20422 * 1440 + 600

/-- Saturday 2025-11-29T15:00:00Z in minutes since the epoch. -/
def saturdayNov29at15 : Minutes := 20421 * 1440 + 900

/-- 2025-11-28T22:00Z, the expanded window start. -/
def windowStartNov28 : Minutes := 20421 * 1440 - 120

/-- 2025-12-01T02:00Z, the expanded window end. -/
def windowEndDec01 : Minutes := 20423 * 1440 + 120

/-- An adult fixture with a fixed kickoff on Saturday 2025-11-29T15:00Z. -/
def fixtureSat : Fixture :=
  { date := saturdayNov29at15, division := some "Div 1 Men"
    home_team := some "St Albans", away_team := some "Blueharts", kickoff := some "15:00" }

/-! ### Dictionary lemmas -/

/-- Unfolding lemma for dfind on cons. -/
theorem dfind_cons {α : Type} (p : String × α) (rest : List (String × α)) (k : String) :
    dfind (p :: rest) k = if p.1 = k then some p.2 else dfind rest k := rfl

/-- Unfolding lemma for dinsert on cons. -/
theorem dinsert_cons {α : Type} (p : String × α) (rest : List (String × α)) (k : String) (v : α) :
    dinsert (p :: rest) k v = if p.1 = k then (k, v) :: rest else p :: dinsert rest k v := rfl

/-- Unfolding lemma for derase on cons. -/
theorem derase_cons {α : Type} (p : String × α) (rest : List (String × α)) (k : String) :
    derase (p :: rest) k = if p.1 = k then rest else p :: derase rest k := rfl

/-- Unfolding lemma for dkeys on cons. -/
theorem dkeys_cons {α : Type} (p : String × α) (rest : List (String × α)) :
    dkeys (p :: rest) = p.1 :: dkeys rest := rfl

/-- Lookup after insert-or-replace. -/
theorem dfind_dinsert {α : Type} (m : List (String × α)) (k j : String) (v : α) :
    dfind (dinsert m k v) j = if k = j then some v else dfind m j := by
  by_cases hkj : k = j
  · subst hkj
    rw [if_pos rfl]
    induction m with
    | nil => simp [dinsert, dfind]
    | cons p rest ih =>
      rw [dinsert_cons]
      by_cases hp : p.1 = k
      · rw [if_pos hp, dfind_cons, if_pos rfl]
      · rw [if_neg hp, dfind_cons, if_neg hp, ih]
  · rw [if_neg hkj]
    induction m with
    | nil =>
      simp only [dinsert, dfind]
      rw [if_neg hkj]
    | cons p rest ih =>
      rw [dinsert_cons]
      by_cases hp : p.1 = k
      · have hpj : ¬ p.1 = j := by rw [hp]; exact hkj
        rw [if_pos hp, dfind_cons, if_neg hkj, dfind_cons, if_neg hpj]
      · rw [if_neg hp, dfind_cons, dfind_cons, ih]

/-- Lookup of another key after deletion. -/
theorem dfind_derase_ne {α : Type} (m : List (String × α)) (k j : String) (h : j ≠ k) :
    dfind (derase m k) j = dfind m j := by
  induction m with
  | nil => rfl
  | cons p rest ih =>
    rw [derase_cons]
    by_cases hp : p.1 = k
    · have hpj : ¬ p.1 = j := by rw [hp]; exact fun hh => h hh.symm
      rw [if_pos hp, dfind_cons, if_neg hpj]
    · rw [if_neg hp, dfind_cons, dfind_cons, ih]

/-- A key is in the key list exactly when lookup hits. -/
theorem dfind_isSome_iff_mem {α : Type} (m : List (String × α)) (k : String) :
    (dfind m k).isSome ↔ k ∈ dkeys m := by
  induction m with
  | nil => simp [dfind, dkeys]
  | cons p rest ih =>
    rw [dfind_cons, dkeys_cons, List.mem_cons]
    by_cases hp : p.1 = k
    · rw [if_pos hp]
      simp [hp.symm]
    · rw [if_neg hp, ih]
      have hkp : ¬ k = p.1 := fun hh => hp hh.symm
      simp [hkp]

/-- Lookup misses exactly off the key list. -/
theorem dfind_eq_none_of_not_mem {α : Type} (m : List (String × α)) (k : String)
    (h : k ∉ dkeys m) : dfind m k = none := by
  cases hc : dfind m k with
  | none => rfl
  | some v => exact absurd ((dfind_isSome_iff_mem m k).1 (by simp [hc])) h

/-- Deleting a key from a distinct-key dictionary removes it. -/
theorem dfind_derase_self {α : Type} (m : List (String × α)) (k : String)
    (h : (dkeys m).Nodup) : dfind (derase m k) k = none := by
  induction m with
  | nil => rfl
  | cons p rest ih =>
    rw [dkeys_cons, List.nodup_cons] at h
    rw [derase_cons]
    by_cases hp : p.1 = k
    · rw [if_pos hp]
      exact dfind_eq_none_of_not_mem rest k (hp ▸ h.1)
    · rw [if_neg hp, dfind_cons, if_neg hp]
      exact ih h.2

/-- Key membership after insert-or-replace. -/
theorem mem_dkeys_dinsert {α : Type} (m : List (String × α)) (k j : String) (v : α) :
    j ∈ dkeys (dinsert m k v) ↔ j = k ∨ j ∈ dkeys m := by
  induction m with
  | nil => simp [dinsert, dkeys]
  | cons p rest ih =>
    rw [dinsert_cons]
    by_cases hp : p.1 = k
    · rw [if_pos hp, dkeys_cons, dkeys_cons, List.mem_cons, List.mem_cons]
      constructor
      · intro hc
        rcases hc with hc | hc
        · exact Or.inl hc
        · exact Or.inr (Or.inr hc)
      · intro hc
        rcases hc with hc | hc | hc
        · exact Or.inl hc
        · exact Or.inl (hc.trans hp)
        · exact Or.inr hc
    · rw [if_neg hp, dkeys_cons, dkeys_cons, List.mem_cons, List.mem_cons, ih]
      tauto

/-- Insert-or-replace preserves key distinctness. -/
theorem dkeys_dinsert_nodup {α : Type} (m : List (String × α)) (k : String) (v : α)
    (h : (dkeys m).Nodup) : (dkeys (dinsert m k v)).Nodup := by
  induction m with
  | nil => simp [dinsert, dkeys]
  | cons p rest ih =>
    rw [dkeys_cons, List.nodup_cons] at h
    rw [dinsert_cons]
    by_cases hp : p.1 = k
    · rw [if_pos hp, dkeys_cons, List.nodup_cons]
      exact ⟨hp ▸ h.1, h.2⟩
    · rw [if_neg hp, dkeys_cons, List.nodup_cons]
      refine ⟨?_, ih h.2⟩
      intro hmem
      rcases (mem_dkeys_dinsert rest k p.1 v).1 hmem with hc | hc
      · exact hp hc
      · exact h.1 hc

/-- Deletion takes a sublist of the entries. -/
theorem derase_sublist {α : Type} (m : List (String × α)) (k : String) :
    (derase m k).Sublist m := by
  induction m with
  | nil => exact List.Sublist.refl []
  | cons p rest ih =>
    rw [derase_cons]
    by_cases hp : p.1 = k
    · rw [if_pos hp]
      exact List.sublist_cons_self p rest
    · rw [if_neg hp]
      exact List.Sublist.cons₂ p ih

/-- Deletion preserves key distinctness. -/
theorem dkeys_derase_nodup {α : Type} (m : List (String × α)) (k : String)
    (h : (dkeys m).Nodup) : (dkeys (derase m k)).Nodup := by
  unfold dkeys at h ⊢
  exact (List.Sublist.map (fun p => p.1) (derase_sublist m k)).nodup h

/-- A hit implies a non-empty dictionary. -/
theorem dfind_ne_nil {α : Type} (m : List (String × α)) (k : String) (v : α)
    (h : dfind m k = some v) : m.isEmpty = false := by
  cases m with
  | nil => simp [dfind] at h
  | cons p rest => rfl

/-! ### Generic fold lemmas

Each loop body of the orchestrator touches exactly one composite key, so
the effect of a fold on the projection at a key is either nothing (the key is
not processed) or the single step taken for it. -/

/-- A fold preserves a predicate preserved by its step. -/
theorem foldl_preserve {σ ι : Type} (step : σ → ι → σ) (P : σ → Prop)
    (hstep : ∀ s x, P s → P (step s x)) (L : List ι) (s : σ) (h : P s) :
    P (L.foldl step s) := by
  induction L generalizing s with
  | nil => exact h
  | cons x rest ih => exact ih (step s x) (hstep s x h)

/-- A fold whose steps all concern other keys leaves the projection at j
unchanged. -/
theorem foldl_projm_frame {ι : Type} (step : Maps → ι → Maps) (keyOf : ι → String)
    (hframe : ∀ st x j, j ≠ keyOf x → projm j (step st x) = projm j st)
    (L : List ι) (st : Maps) (j : String) (hL : ∀ x ∈ L, keyOf x ≠ j) :
    projm j (L.foldl step st) = projm j st := by
  induction L generalizing st with
  | nil => rfl
  | cons x rest ih =>
    have hx : keyOf x ≠ j := hL x (List.mem_cons_self x rest)
    rw [List.foldl_cons, ih (step st x) (fun y hy => hL y (List.mem_cons_of_mem x hy)),
      hframe st x j (fun hh => hx hh.symm)]

/-- A fold over a key-distinct list processes the key of a member x
exactly once, through G. -/
theorem foldl_projm_mem {ι : Type} (step : Maps → ι → Maps) (keyOf : ι → String)
    (P : Maps → Prop)
    (G : ι → Option SnapRecord × Option ErrCtx → Option SnapRecord × Option ErrCtx)
    (hframe : ∀ st x j, j ≠ keyOf x → projm j (step st x) = projm j st)
    (hstep : ∀ st x, P st → projm (keyOf x) (step st x) = G x (projm (keyOf x) st))
    (hP : ∀ st x, P st → P (step st x))
    (L : List ι) (st : Maps) (x : ι)
    (hmem : x ∈ L) (hnd : (L.map keyOf).Nodup) (hPst : P st) :
    projm (keyOf x) (L.foldl step st) = G x (projm (keyOf x) st) := by
  obtain ⟨L1, L2, rfl⟩ := List.append_of_mem hmem
  rw [List.map_append, List.map_cons] at hnd
  have hnd1 : keyOf x ∉ L1.map keyOf := by
    intro hc
    have := (List.nodup_append.mp hnd).2.2
    exact absurd (List.mem_cons_self (keyOf x) (L2.map keyOf)) (this hc)
  have hnd2 : keyOf x ∉ L2.map keyOf := by
    have := (List.nodup_append.mp hnd).2.1
    exact (List.nodup_cons.mp this).1
  rw [List.foldl_append, List.foldl_cons]
  have hmid : projm (keyOf x) (L1.foldl step st) = projm (keyOf x) st :=
    foldl_projm_frame step keyOf hframe L1 st (keyOf x)
      (fun y hy hc => hnd1 (hc ▸ List.mem_map_of_mem keyOf hy))
  have hPmid : P (L1.foldl step st) := foldl_preserve step P hP L1 st hPst
  rw [foldl_projm_frame step keyOf hframe L2 _ (keyOf x)
      (fun y hy hc => hnd2 (hc ▸ List.mem_map_of_mem keyOf hy)),
    hstep _ x hPmid, hmid]

/-! ### Step lemmas for the three loop bodies -/

/-- The initial pass step leaves other keys untouched. -/
theorem projm_initStep_ne (oracle : Oracle) (sd : Option String) (st : Maps)
    (ie : Nat × Entry) (j : String) (h : j ≠ make_entry_key ie.2 ie.1) :
    projm j (initStep oracle sd st ie) = projm j st := by
  have hkj : ¬ (make_entry_key ie.2 ie.1 = j) := fun hh => h hh.symm
  cases hr : roundFetch oracle sd 0 ie.2 ie.1 with
  | ok rec => simp [initStep, hr, projm, dfind_dinsert, hkj]
  | error m => simp [initStep, hr, projm, dfind_dinsert, hkj]

/-- The initial pass step acts as initProj at the processed key. -/
theorem projm_initStep_self (oracle : Oracle) (sd : Option String) (st : Maps)
    (ie : Nat × Entry) :
    projm (make_entry_key ie.2 ie.1) (initStep oracle sd st ie) =
      initProj oracle sd ie (projm (make_entry_key ie.2 ie.1) st) := by
  cases hr : roundFetch oracle sd 0 ie.2 ie.1 with
  | ok rec => simp [initStep, initProj, hr, projm, dfind_dinsert]
  | error m => simp [initStep, initProj, hr, projm, dfind_dinsert]

/-- The initial pass step preserves failure-map key distinctness. -/
theorem errNodup_initStep (oracle : Oracle) (sd : Option String) (st : Maps)
    (ie : Nat × Entry) (h : errNodup st) : errNodup (initStep oracle sd st ie) := by
  unfold errNodup at h ⊢
  cases hr : roundFetch oracle sd 0 ie.2 ie.1 with
  | ok rec => simpa [initStep, hr] using h
  | error m =>
    simp only [initStep, hr]
    exact dkeys_dinsert_nodup _ _ _ h

/-- The retry step leaves other keys untouched. -/
theorem projm_retryStep_ne (oracle : Oracle) (round : Nat) (sd : Option String)
    (st : Maps) (k j : String) (h : j ≠ k) :
    projm j (retryStep oracle round sd st k) = projm j st := by
  have hkj : ¬ (k = j) := fun hh => h hh.symm
  cases hc : dfind st.errors k with
  | none => simp [retryStep, hc]
  | some ctx =>
    cases hr : roundFetch oracle sd round ctx.entry ctx.index with
    | ok rec => simp [retryStep, hc, hr, projm, dfind_dinsert, dfind_derase_ne _ _ _ h, hkj]
    | error m => simp [retryStep, hc, hr, projm, dfind_dinsert, hkj]

/-- The retry step acts as retryProj at its key. -/
theorem projm_retryStep_self (oracle : Oracle) (round : Nat) (sd : Option String)
    (st : Maps) (k : String) (h : errNodup st) :
    projm k (retryStep oracle round sd st k) =
      retryProj oracle round sd (projm k st) := by
  cases hc : dfind st.errors k with
  | none => simp [retryStep, retryProj, hc, projm]
  | some ctx =>
    cases hr : roundFetch oracle sd round ctx.entry ctx.index with
    | ok rec =>
      simp [retryStep, retryProj, hc, hr, projm, dfind_dinsert, dfind_derase_self _ _ h]
    | error m => simp [retryStep, retryProj, hc, hr, projm, dfind_dinsert]

/-- The retry step preserves failure-map key distinctness. -/
theorem errNodup_retryStep (oracle : Oracle) (round : Nat) (sd : Option String)
    (st : Maps) (k : String) (h : errNodup st) :
    errNodup (retryStep oracle round sd st k) := by
  unfold errNodup at h ⊢
  cases hc : dfind st.errors k with
  | none => simpa [retryStep, hc] using h
  | some ctx =>
    cases hr : roundFetch oracle sd round ctx.entry ctx.index with
    | ok rec =>
      simp only [retryStep, hc, hr]
      exact dkeys_derase_nodup _ _ h
    | error m =>
      simp only [retryStep, hc, hr]
      exact dkeys_dinsert_nodup _ _ _ h

/-- The fallback step leaves other keys untouched. -/
theorem projm_fbStep_ne (fmap : List (String × SnapRecord)) (publishPath now : String)
    (sd : Option String) (st : Maps) (k j : String) (h : j ≠ k) :
    projm j (fbStep fmap publishPath now sd st k) = projm j st := by
  have hkj : ¬ (k = j) := fun hh => h hh.symm
  cases hc : dfind st.errors k with
  | none => simp [fbStep, hc]
  | some ctx =>
    cases ht : truthy ctx.entry.teamId with
    | none => simp [fbStep, hc, ht]
    | some tid =>
      cases hf : dfind fmap tid with
      | none => simp [fbStep, hc, ht, hf]
      | some prior =>
        simp [fbStep, hc, ht, hf, projm, dfind_dinsert, dfind_derase_ne _ _ _ h, hkj]

/-- The fallback step acts as fbStepProj at its key. -/
theorem projm_fbStep_self (fmap : List (String × SnapRecord)) (publishPath now : String)
    (sd : Option String) (st : Maps) (k : String) (h : errNodup st) :
    projm k (fbStep fmap publishPath now sd st k) =
      fbStepProj fmap publishPath now sd (projm k st) := by
  cases hc : dfind st.errors k with
  | none => simp [fbStep, fbStepProj, hc, projm]
  | some ctx =>
    cases ht : truthy ctx.entry.teamId with
    | none => simp [fbStep, fbStepProj, hc, ht, projm]
    | some tid =>
      cases hf : dfind fmap tid with
      | none => simp [fbStep, fbStepProj, hc, ht, hf, projm]
      | some prior =>
        simp [fbStep, fbStepProj, hc, ht, hf, projm, dfind_dinsert, dfind_derase_self _ _ h]

/-- The fallback step preserves failure-map key distinctness. -/
theorem errNodup_fbStep (fmap : List (String × SnapRecord)) (publishPath now : String)
    (sd : Option String) (st : Maps) (k : String) (h : errNodup st) :
    errNodup (fbStep fmap publishPath now sd st k) := by
  unfold errNodup at h ⊢
  cases hc : dfind st.errors k with
  | none => simpa [fbStep, hc] using h
  | some ctx =>
    cases ht : truthy ctx.entry.teamId with
    | none => simpa [fbStep, hc, ht] using h
    | some tid =>
      cases hf : dfind fmap tid with
      | none => simpa [fbStep, hc, ht, hf] using h
      | some prior =>
        simp only [fbStep, hc, ht, hf]
        exact dkeys_derase_nodup _ _ h

/-! ### Phase lemmas -/

/-- The composite keys in the generic form used by the fold lemmas. -/
theorem orderedKeys_eq_map (teams : List Entry) :
    orderedKeys teams = (teams.enumFrom 1).map (fun ie => make_entry_key ie.2 ie.1) := by
  unfold orderedKeys orderedOf
  rw [List.map_map]
  rfl

/-- The initial pass preserves failure-map key distinctness from the
empty state. -/
theorem errNodup_initialMaps (oracle : Oracle) (sd : Option String) (teams : List Entry) :
    errNodup (initialMaps oracle sd teams) := by
  unfold initialMaps
  exact foldl_preserve (initStep oracle sd) errNodup
    (fun st x => errNodup_initStep oracle sd st x) _ _ (by simp [errNodup, dkeys])

/-- A retry round preserves failure-map key distinctness. -/
theorem errNodup_retryRound (oracle : Oracle) (round : Nat) (sd : Option String)
    (st : Maps) (h : errNodup st) : errNodup (retryRound oracle round sd st) := by
  unfold retryRound
  exact foldl_preserve (retryStep oracle round sd) errNodup
    (fun st2 x => errNodup_retryStep oracle round sd st2 x) _ _ h

/-- The state after both retry rounds has a distinct-key failure map. -/
theorem errNodup_mapsAfterRetries (oracle : Oracle) (sd : Option String)
    (teams : List Entry) : errNodup (mapsAfterRetries oracle sd teams) :=
  errNodup_retryRound oracle 2 sd _
    (errNodup_retryRound oracle 1 sd _ (errNodup_initialMaps oracle sd teams))

/-- Projection of the state after the initial pass at the key of a
config entry, assuming the synthesized keys are pairwise distinct. -/
theorem projm_initialMaps (oracle : Oracle) (sd : Option String) (teams : List Entry)
    (ie : Nat × Entry) (hmem : ie ∈ teams.enumFrom 1)
    (hnd : (orderedKeys teams).Nodup) :
    projm (make_entry_key ie.2 ie.1) (initialMaps oracle sd teams) =
      initProj oracle sd ie (none, none) := by
  unfold initialMaps
  have hnd2 : ((teams.enumFrom 1).map (fun x => make_entry_key x.2 x.1)).Nodup := by
    rw [← orderedKeys_eq_map]; exact hnd
  have := foldl_projm_mem (initStep oracle sd) (fun x => make_entry_key x.2 x.1) errNodup
    (fun x pr => initProj oracle sd x pr)
    (fun st x j hj => projm_initStep_ne oracle sd st x j hj)
    (fun st x _ => projm_initStep_self oracle sd st x)
    (fun st x hP => errNodup_initStep oracle sd st x hP)
    (teams.enumFrom 1) { records := [], errors := [] } ie hmem hnd2
    (by simp [errNodup, dkeys])
  rw [this]
  rfl

/-- Projection of one retry round at any key. -/
theorem projm_retryRound (oracle : Oracle) (round : Nat) (sd : Option String)
    (st : Maps) (j : String) (h : errNodup st) :
    projm j (retryRound oracle round sd st) = retryProj oracle round sd (projm j st) := by
  unfold retryRound
  cases hc : dfind st.errors j with
  | none =>
    have hL : ∀ x ∈ dkeys st.errors, id x ≠ j := by
      intro x hx hxj
      have : j ∈ dkeys st.errors := by rw [← hxj]; exact hx
      have := (dfind_isSome_iff_mem st.errors j).2 this
      rw [hc] at this
      simp at this
    rw [foldl_projm_frame (retryStep oracle round sd) id
      (fun st2 x j2 hj2 => projm_retryStep_ne oracle round sd st2 x j2 hj2)
      (dkeys st.errors) st j hL]
    simp [retryProj, projm, hc]
  | some ctx =>
    have hmem : j ∈ dkeys st.errors :=
      (dfind_isSome_iff_mem st.errors j).1 (by simp [hc])
    have hnd2 : ((dkeys st.errors).map id).Nodup := by simpa using h
    exact foldl_projm_mem (retryStep oracle round sd) id errNodup
      (fun _ pr => retryProj oracle round sd pr)
      (fun st2 x j2 hj2 => projm_retryStep_ne oracle round sd st2 x j2 hj2)
      (fun st2 x hP => projm_retryStep_self oracle round sd st2 x hP)
      (fun st2 x hP => errNodup_retryStep oracle round sd st2 x hP)
      (dkeys st.errors) st j hmem hnd2 h

/-- Projection of the whole fallback phase at any key. -/
theorem projm_fallbackPhase (publish : Option (Option (List SnapRecord)))
    (publishPath now : String) (sd : Option String) (st : Maps) (j : String)
    (h : errNodup st) :
    projm j (fallbackPhase publish publishPath now sd st) =
      fbProj publish publishPath now sd (projm j st) := by
  cases publish with
  | none => rfl
  | some parsed =>
    simp only [fallbackPhase, fbProj]
    by_cases he : st.errors.isEmpty
    · rw [if_pos he]
      have hj : dfind st.errors j = none := by
        cases hm : st.errors with
        | nil => rfl
        | cons p rest => rw [hm] at he; simp [List.isEmpty] at he
      by_cases hf : (fallbackMapOf (parsed.getD [])).isEmpty
      · rw [if_pos hf]
      · rw [if_neg hf]
        simp [fbStepProj, projm, hj]
    · rw [if_neg he]
      by_cases hf : (fallbackMapOf (parsed.getD [])).isEmpty
      · rw [if_pos hf, if_pos hf]
      · rw [if_neg hf, if_neg hf]
        cases hc : dfind st.errors j with
        | none =>
          have hL : ∀ x ∈ dkeys st.errors, id x ≠ j := by
            intro x hx hxj
            have : j ∈ dkeys st.errors := by rw [← hxj]; exact hx
            have := (dfind_isSome_iff_mem st.errors j).2 this
            rw [hc] at this
            simp at this
          rw [foldl_projm_frame (fbStep (fallbackMapOf (parsed.getD [])) publishPath now sd) id
            (fun st2 x j2 hj2 => projm_fbStep_ne _ publishPath now sd st2 x j2 hj2)
            (dkeys st.errors) st j hL]
          simp [fbStepProj, projm, hc]
        | some ctx =>
          have hmem : j ∈ dkeys st.errors :=
            (dfind_isSome_iff_mem st.errors j).1 (by simp [hc])
          have hnd2 : ((dkeys st.errors).map id).Nodup := by simpa using h
          exact foldl_projm_mem (fbStep (fallbackMapOf (parsed.getD [])) publishPath now sd) id
            errNodup (fun _ pr => fbStepProj (fallbackMapOf (parsed.getD [])) publishPath now sd pr)
            (fun st2 x j2 hj2 => projm_fbStep_ne _ publishPath now sd st2 x j2 hj2)
            (fun st2 x hP => projm_fbStep_self _ publishPath now sd st2 x hP)
            (fun st2 x hP => errNodup_fbStep _ publishPath now sd st2 x hP)
            (dkeys st.errors) st j hmem hnd2 h

/-! ### Indexing lemmas and the per-entry correspondence -/

/-- Indexing an enumerated list. -/
theorem enumFrom_getElem? {α : Type} (l : List α) (n i : Nat) :
    (l.enumFrom n)[i]? = (l[i]?).map (fun a => (n + i, a)) := by
  induction l generalizing n i with
  | nil => simp [List.enumFrom]
  | cons a t ih =>
    cases i with
    | zero => simp [List.enumFrom]
    | succ i2 =>
      have h : n + 1 + i2 = n + (i2 + 1) := by omega
      simp [List.enumFrom, ih (n + 1) i2, h]

/-- The bulk run always emits one record per config entry. -/
theorem bulk_length (oracle : Oracle) (teams : List Entry)
    (publish : Option (Option (List SnapRecord))) (publishPath now : String)
    (sd : Option String) :
    (bulkResults oracle teams publish publishPath now sd).length = teams.length := by
  simp [bulkResults, assemble, orderedOf, List.enumFrom_length]

/-- A retry round is the identity on a key with no pending failure. -/
theorem retryProj_of_none (oracle : Oracle) (round : Nat) (sd : Option String)
    (pr : Option SnapRecord × Option ErrCtx) (h : pr.2 = none) :
    retryProj oracle round sd pr = pr := by
  obtain ⟨a, b⟩ := pr
  simp only at h
  subst h
  rfl

/-- The fallback loop body is the identity on a key with no pending
failure. -/
theorem fbStepProj_of_none (fmap : List (String × SnapRecord)) (publishPath now : String)
    (sd : Option String) (pr : Option SnapRecord × Option ErrCtx) (h : pr.2 = none) :
    fbStepProj fmap publishPath now sd pr = pr := by
  obtain ⟨a, b⟩ := pr
  simp only at h
  subst h
  rfl

/-- The fallback phase is the identity on a key with no pending failure. -/
theorem fbProj_of_none (publish : Option (Option (List SnapRecord)))
    (publishPath now : String) (sd : Option String)
    (pr : Option SnapRecord × Option ErrCtx) (h : pr.2 = none) :
    fbProj publish publishPath now sd pr = pr := by
  cases publish with
  | none => rfl
  | some parsed =>
    simp only [fbProj]
    by_cases hf : (fallbackMapOf (parsed.getD [])).isEmpty
    · simp [hf]
    · simp [hf, fbStepProj_of_none _ publishPath now sd pr h]

/-- Under pairwise distinct composite keys, the i-th bulk result is
exactly the per-entry outcome of the i-th config entry. -/
theorem bulk_correspond (oracle : Oracle) (teams : List Entry)
    (publish : Option (Option (List SnapRecord))) (publishPath now : String)
    (sd : Option String) (hnd : (orderedKeys teams).Nodup) (i : Nat) (e : Entry)
    (he : teams[i]? = some e) :
    (bulkResults oracle teams publish publishPath now sd)[i]? =
      some (producedFor oracle publish publishPath now sd e (1 + i)) := by
  have hmem : (1 + i, e) ∈ teams.enumFrom 1 := by
    have hgot : (teams.enumFrom 1)[i]? = some (1 + i, e) := by
      rw [enumFrom_getElem?, he]
      rfl
    exact List.getElem?_mem hgot
  have h0 : projm (make_entry_key e (1 + i)) (initialMaps oracle sd teams) =
      initProj oracle sd (1 + i, e) (none, none) :=
    projm_initialMaps oracle sd teams (1 + i, e) hmem hnd
  have hN0 := errNodup_initialMaps oracle sd teams
  have h1 : projm (make_entry_key e (1 + i))
      (retryRound oracle 1 sd (initialMaps oracle sd teams)) =
      retryProj oracle 1 sd (initProj oracle sd (1 + i, e) (none, none)) := by
    rw [projm_retryRound oracle 1 sd _ _ hN0, h0]
  have hN1 := errNodup_retryRound oracle 1 sd _ hN0
  have h2 : projm (make_entry_key e (1 + i)) (mapsAfterRetries oracle sd teams) =
      retryProj oracle 2 sd (retryProj oracle 1 sd (initProj oracle sd (1 + i, e) (none, none))) := by
    unfold mapsAfterRetries
    rw [projm_retryRound oracle 2 sd _ _ hN1, h1]
  have hN2 := errNodup_mapsAfterRetries oracle sd teams
  have h3 : projm (make_entry_key e (1 + i))
      (finalMaps oracle teams publish publishPath now sd) =
      fbProj publish publishPath now sd
        (retryProj oracle 2 sd (retryProj oracle 1 sd (initProj oracle sd (1 + i, e) (none, none)))) := by
    unfold finalMaps
    rw [projm_fallbackPhase publish publishPath now sd _ _ hN2, h2]
  have hord : (orderedOf teams)[i]? =
      some { key := make_entry_key e (1 + i), entry := e, index := 1 + i } := by
    unfold orderedOf
    rw [List.getElem?_map, enumFrom_getElem?, he]
    rfl
  have hres : (bulkResults oracle teams publish publishPath now sd)[i]? =
      some (match dfind (finalMaps oracle teams publish publishPath now sd).records
          (make_entry_key e (1 + i)) with
        | some r => r
        | none => build_error_record e
            (match dfind (finalMaps oracle teams publish publishPath now sd).errors
                (make_entry_key e (1 + i)) with
             | some ctx => ctx.message
             | none => "Unknown error")) := by
    unfold bulkResults assemble
    rw [List.getElem?_map, hord]
    rfl
  have hrec : dfind (finalMaps oracle teams publish publishPath now sd).records
      (make_entry_key e (1 + i)) =
      (fbProj publish publishPath now sd
        (retryProj oracle 2 sd (retryProj oracle 1 sd (initProj oracle sd (1 + i, e) (none, none))))).1 :=
    congrArg Prod.fst h3
  have herr : dfind (finalMaps oracle teams publish publishPath now sd).errors
      (make_entry_key e (1 + i)) =
      (fbProj publish publishPath now sd
        (retryProj oracle 2 sd (retryProj oracle 1 sd (initProj oracle sd (1 + i, e) (none, none))))).2 :=
    congrArg Prod.snd h3
  rw [hres, hrec, herr]
  unfold producedFor
  cases hr0 : roundFetch oracle sd 0 e (1 + i) with
  | ok r0 =>
    simp only [initProj, hr0]
    simp [retryProj_of_none, fbProj_of_none]
  | error m0 =>
    simp only [initProj, hr0, retryProj]
    cases hr1 : roundFetch oracle sd 1 e (1 + i) with
    | ok r1 =>
      simp only [hr1]
      simp [retryProj_of_none, fbProj_of_none]
    | error m1 =>
      simp only [hr1, retryProj]
      cases hr2 : roundFetch oracle sd 2 e (1 + i) with
      | ok r2 =>
        simp only [hr2]
        simp [fbProj_of_none]
      | error m2 =>
        simp only [hr2]
        cases publish with
        | none => rfl
        | some parsed =>
          simp only [fbProj, fallbackFor]
          by_cases hf : (fallbackMapOf (parsed.getD [])).isEmpty
          · simp [hf]
          · simp only [hf, Bool.false_eq_true, if_false, fbStepProj]
            cases ht : truthy e.teamId with
            | none => simp [ht]
            | some tid =>
              cases hfd : dfind (fallbackMapOf (parsed.getD [])) tid with
              | none => simp [ht, hfd]
              | some prior => simp [ht, hfd]

/-! ### Claim C4: rotation precondition and rename order -/

/-- C4. For every filesystem and triple of paths, rotate_snapshots raises
when the new snapshot path does not exist and then modifies nothing; when
the new snapshot exists (and the three paths are distinct, as they are in
every call site), no exception is raised, current receives the content
of the new snapshot, the new path is vacated, and previous receives the
old current content exactly when a current existed — i.e. current was
renamed to previous before new was renamed to current. -/
theorem rotate_snapshots_spec (fs : FileMap) (newP curP prevP : String) :
    ((fs newP = none →
      rotate_snapshots fs newP curP prevP =
        (fs, some ("New snapshot " ++ newP ++ " does not exist."))) ∧
     (∀ c, fs newP = some c → newP ≠ curP → newP ≠ prevP → curP ≠ prevP →
       (rotate_snapshots fs newP curP prevP).2 = none ∧
       (rotate_snapshots fs newP curP prevP).1 curP = some c ∧
       (rotate_snapshots fs newP curP prevP).1 newP = none ∧
       (rotate_snapshots fs newP curP prevP).1 prevP =
         (if (fs curP).isSome then fs curP else fs prevP))) := by
  constructor
  · intro h
    simp [rotate_snapshots, h]
  · intro c h hnc hnp hcp
    have hpc : ¬ (prevP = curP) := fun hh => hcp hh.symm
    have hpn : ¬ (prevP = newP) := fun hh => hnp hh.symm
    have hcn : ¬ (curP = newP) := fun hh => hnc hh.symm
    by_cases hcur : (fs curP).isSome
    · simp [rotate_snapshots, fsRename, h, hcur, hnc, hnp, hcp, hpc, hpn, hcn]
    · simp [rotate_snapshots, fsRename, h, hcur, hnc, hnp, hcp, hpc, hpn, hcn]

/-- Witness for C4 at a concrete filesystem: the missing-new case leaves
everything in place, and the normal case moves new to current. -/
theorem rotate_snapshots_spec_witness :
    (rotate_snapshots fsEmpty "new.json" "cur.json" "prev.json" =
      (fsEmpty, some "New snapshot new.json does not exist.")) ∧
    ((rotate_snapshots fsNewCur "new.json" "cur.json" "prev.json").2 = none ∧
     (rotate_snapshots fsNewCur "new.json" "cur.json" "prev.json").1 "cur.json" = some "N" ∧
     (rotate_snapshots fsNewCur "new.json" "cur.json" "prev.json").1 "new.json" = none ∧
     (rotate_snapshots fsNewCur "new.json" "cur.json" "prev.json").1 "prev.json" =
       (if (fsNewCur "cur.json").isSome then fsNewCur "cur.json" else fsNewCur "prev.json")) := by
  constructor
  · exact (rotate_snapshots_spec fsEmpty "new.json" "cur.json" "prev.json").1 rfl
  · exact (rotate_snapshots_spec fsNewCur "new.json" "cur.json" "prev.json").2 "N" rfl
      (by decide) (by decide) (by decide)

/-! ### Claim C3: rotation skipped on partial failure -/

/-- C3. In a bulk run with rotation requested, when the failure map is
non-empty after fallback resolution, rotate_snapshots is not invoked
(flag false) and the filesystem — in particular the current and previous
snapshot files — is returned unchanged by the rotation step. -/
theorem bulk_rotation_skip (oracle : Oracle) (teams : List Entry)
    (publish : Option (Option (List SnapRecord))) (publishPath now : String)
    (sd : Option String) (fs : FileMap) (newP curP prevP : String)
    (h : (finalMaps oracle teams publish publishPath now sd).errors ≠ []) :
    bulkRotationStep true (finalMaps oracle teams publish publishPath now sd)
      fs newP curP prevP = (fs, false) := by
  have he : (finalMaps oracle teams publish publishPath now sd).errors.isEmpty = false := by
    cases hm : (finalMaps oracle teams publish publishPath now sd).errors with
    | nil => exact absurd hm h
    | cons p rest => rfl
  simp [bulkRotationStep, he]

/-- Witness for C3: a config entry with no identifiers fails every round
and has no fallback, so rotation is skipped and the filesystem is
untouched. -/
theorem bulk_rotation_skip_witness :
    (finalMaps oracleFail [entryNoIds] none "pub.json" "now" none).errors ≠ [] ∧
    bulkRotationStep true (finalMaps oracleFail [entryNoIds] none "pub.json" "now" none)
      fsCurOnly "new.json" "cur.json" "prev.json" = (fsCurOnly, false) := by
  have h : (finalMaps oracleFail [entryNoIds] none "pub.json" "now" none).errors ≠ [] := by
    decide
  exact ⟨h, bulk_rotation_skip oracleFail [entryNoIds] none "pub.json" "now" none
    fsCurOnly "new.json" "cur.json" "prev.json" h⟩

/-! ### Claim C10: expected count of zero -/

/-- C10. Validation with an expected count of 0 behaves exactly as
validation with no expected count: the Python guard tests the truthiness
of expected_count, and 0 is falsy, so both count checks are skipped and
a snapshot of any size passes them. -/
theorem validate_zero_expected_count (current_records : List SnapRecord)
    (previous : Option (Option (List SnapRecord))) (previousPath : String) :
    command_validate_snapshots current_records previous previousPath (some 0) =
      command_validate_snapshots current_records previous previousPath none := rfl

/-! ### Claim C7: symmetric difference validation -/

/-- C7. When a previous snapshot exists, validation reports the set
difference of teamIds in both directions as two separate issues, all
collected in one list, and the process exits non-zero exactly when the
list is non-empty. -/
theorem validate_symmetric_diff (current_records prev_records : List SnapRecord)
    (previousPath : String) (expected_count : Option Nat) :
    (setDiff (snap_team_ids prev_records) (snap_team_ids current_records) ≠ [] →
      msg_missing_from_current
          (setDiff (snap_team_ids prev_records) (snap_team_ids current_records)) ∈
        command_validate_snapshots current_records (some (some prev_records))
          previousPath expected_count) ∧
    (setDiff (snap_team_ids current_records) (snap_team_ids prev_records) ≠ [] →
      msg_missing_from_previous
          (setDiff (snap_team_ids current_records) (snap_team_ids prev_records)) ∈
        command_validate_snapshots current_records (some (some prev_records))
          previousPath expected_count) ∧
    (command_validate_snapshots current_records (some (some prev_records))
        previousPath expected_count ≠ [] →
      validationExit (command_validate_snapshots current_records (some (some prev_records))
        previousPath expected_count) = 1) := by
  refine ⟨?_, ?_, ?_⟩
  · intro h
    have hne : (setDiff (snap_team_ids prev_records) (snap_team_ids current_records)).isEmpty
        = false := by
      cases hm : setDiff (snap_team_ids prev_records) (snap_team_ids current_records) with
      | nil => exact absurd hm h
      | cons p rest => rfl
    simp [command_validate_snapshots, hne, List.mem_append]
  · intro h
    have hne : (setDiff (snap_team_ids current_records) (snap_team_ids prev_records)).isEmpty
        = false := by
      cases hm : setDiff (snap_team_ids current_records) (snap_team_ids prev_records) with
      | nil => exact absurd hm h
      | cons p rest => rfl
    simp [command_validate_snapshots, hne, List.mem_append]
  · intro h
    have hne : (command_validate_snapshots current_records (some (some prev_records))
        previousPath expected_count).isEmpty = false := by
      cases hm : command_validate_snapshots current_records (some (some prev_records))
          previousPath expected_count with
      | nil => exact absurd hm h
      | cons p rest => rfl
    simp [validationExit, hne]

/-- Witness for C7: current identifiers A, B, C against previous A, B, D
report D missing from current and C missing from previous, and the run
fails. -/
theorem validate_symmetric_diff_witness :
    msg_missing_from_current ["D"] ∈
      command_validate_snapshots [recTeam "A", recTeam "B", recTeam "C"]
        (some (some [recTeam "A", recTeam "B", recTeam "D"])) "prev.json" none ∧
    msg_missing_from_previous ["C"] ∈
      command_validate_snapshots [recTeam "A", recTeam "B", recTeam "C"]
        (some (some [recTeam "A", recTeam "B", recTeam "D"])) "prev.json" none ∧
    validationExit (command_validate_snapshots [recTeam "A", recTeam "B", recTeam "C"]
      (some (some [recTeam "A", recTeam "B", recTeam "D"])) "prev.json" none) = 1 := by
  have h := validate_symmetric_diff [recTeam "A", recTeam "B", recTeam "C"]
    [recTeam "A", recTeam "B", recTeam "D"] "prev.json" none
  have hd1 : setDiff (snap_team_ids [recTeam "A", recTeam "B", recTeam "D"])
      (snap_team_ids [recTeam "A", recTeam "B", recTeam "C"]) = ["D"] := by decide
  have hd2 : setDiff (snap_team_ids [recTeam "A", recTeam "B", recTeam "C"])
      (snap_team_ids [recTeam "A", recTeam "B", recTeam "D"]) = ["C"] := by decide
  refine ⟨?_, ?_, ?_⟩
  · have := h.1 (by rw [hd1]; exact fun hh => List.noConfusion hh)
    rwa [hd1] at this
  · have := h.2.1 (by rw [hd2]; exact fun hh => List.noConfusion hh)
    rwa [hd2] at this
  · exact h.2.2 (by decide)

/-! ### Claim C1: order preservation (amended) -/

/-- C1 (amended).  The final result list always has exactly one element
per config entry; and provided the synthesized composite keys are
pairwise distinct, the i-th element is exactly the record produced for
the i-th config entry (live success from the earliest succeeding round,
else fallback substitution, else ErrorRecord), in configuration order.
When two entries synthesize the same composite key, the success map is
keyed per composite key and the record of the later entry overwrites
the earlier one, so positional correspondence can fail (see the
counterexample); the length property still holds unconditionally. -/
theorem bulk_order_preservation (oracle : Oracle) (teams : List Entry)
    (publish : Option (Option (List SnapRecord))) (publishPath now : String)
    (sd : Option String) :
    (bulkResults oracle teams publish publishPath now sd).length = teams.length ∧
    ((orderedKeys teams).Nodup → ∀ i e, teams[i]? = some e →
      (bulkResults oracle teams publish publishPath now sd)[i]? =
        some (producedFor oracle publish publishPath now sd e (1 + i))) :=
  ⟨bulk_length oracle teams publish publishPath now sd,
   fun hnd i e he => bulk_correspond oracle teams publish publishPath now sd hnd i e he⟩

/-- Counterexample to C1 as stated: two entries sharing teamId t and
compId c (hence one composite key) both fetch successfully, but position
0 of the result holds the record built from the second entry (name B),
not the record produced for the first entry (name A). -/
theorem bulk_order_preservation_counterexample :
    (bulkResults oracleOkBlank [entryDupA, entryDupB] none "pub.json" "now" none)[0]? ≠
      some (producedFor oracleOkBlank none "pub.json" "now" none entryDupA 1) := by
  decide

/-- Witness for C1 on a two-entry config with distinct keys: both the
length and the positional correspondence hold. -/
theorem bulk_order_preservation_witness :
    (bulkResults oracleOkBlank [entryTeam2, entryNoComp] none "pub.json" "now" none).length
      = 2 ∧
    (orderedKeys [entryTeam2, entryNoComp]).Nodup ∧
    (bulkResults oracleOkBlank [entryTeam2, entryNoComp] none "pub.json" "now" none)[0]? =
      some (producedFor oracleOkBlank none "pub.json" "now" none entryTeam2 1) ∧
    (bulkResults oracleOkBlank [entryTeam2, entryNoComp] none "pub.json" "now" none)[1]? =
      some (producedFor oracleOkBlank none "pub.json" "now" none entryNoComp 2) := by
  have h := bulk_order_preservation oracleOkBlank [entryTeam2, entryNoComp] none
    "pub.json" "now" none
  have hnd : (orderedKeys [entryTeam2, entryNoComp]).Nodup := by decide
  exact ⟨h.1, hnd, h.2 hnd 0 entryTeam2 (by decide), h.2 hnd 1 entryNoComp (by decide)⟩

/-! ### Claim C2: fallback provenance -/

/-- The stamped fallback copy keeps the stats of the prior record and carries
the three provenance markers. -/
theorem stampFallback_fields (prior : SnapRecord) (publishPath now : String)
    (sd : Option String) :
    (stampFallback prior publishPath now sd).stats = prior.stats ∧
    ∃ m, (stampFallback prior publishPath now sd).meta = some m ∧
      m.source = some "fallback" ∧ m.fallbackSnapshot = some publishPath ∧
      m.fallbackAppliedAt = some now := by
  unfold stampFallback attach_snapshot_meta deep_copy_record
  cases htd : truthy sd with
  | none => exact ⟨rfl, _, rfl, rfl, rfl, rfl⟩
  | some d => exact ⟨rfl, _, rfl, rfl, rfl, rfl⟩

/-- C2.  For a key still in the failure map after the retry rounds, when
the published snapshot exists and parses, and its fallback map holds a
prior record for the teamId of the failing entry, every output position with
that key receives the deep-copied prior record stamped with fallback
provenance: meta.source = "fallback", meta.fallbackSnapshot = the
snapshot path, meta.fallbackAppliedAt = the run timestamp, and stats
equal to the stats of the prior record. -/
theorem bulk_fallback_provenance (oracle : Oracle) (teams : List Entry)
    (items : List SnapRecord) (publishPath now : String) (sd : Option String)
    (k : String) (ctx : ErrCtx) (tid : String) (prior : SnapRecord)
    (i : Nat) (item : OrderedItem)
    (herr : dfind (mapsAfterRetries oracle sd teams).errors k = some ctx)
    (htid : truthy ctx.entry.teamId = some tid)
    (hprior : dfind (fallbackMapOf items) tid = some prior)
    (hitem : (orderedOf teams)[i]? = some item) (hkey : item.key = k) :
    (bulkResults oracle teams (some (some items)) publishPath now sd)[i]? =
      some (stampFallback prior publishPath now sd) ∧
    (stampFallback prior publishPath now sd).stats = prior.stats ∧
    ∃ m, (stampFallback prior publishPath now sd).meta = some m ∧
      m.source = some "fallback" ∧ m.fallbackSnapshot = some publishPath ∧
      m.fallbackAppliedAt = some now := by
  have hN2 := errNodup_mapsAfterRetries oracle sd teams
  have h3 := projm_fallbackPhase (some (some items)) publishPath now sd
    (mapsAfterRetries oracle sd teams) k hN2
  have hfne : (fallbackMapOf items).isEmpty = false := dfind_ne_nil _ _ _ hprior
  have hrecv : dfind (finalMaps oracle teams (some (some items)) publishPath now sd).records k
      = some (stampFallback prior publishPath now sd) := by
    have h4 : dfind (finalMaps oracle teams (some (some items)) publishPath now sd).records k
        = (fbProj (some (some items)) publishPath now sd
            (projm k (mapsAfterRetries oracle sd teams))).1 := congrArg Prod.fst h3
    rw [h4]
    simp [fbProj, fbStepProj, projm, herr, htid, hprior, hfne]
  have hres : (bulkResults oracle teams (some (some items)) publishPath now sd)[i]? =
      some (match dfind (finalMaps oracle teams (some (some items)) publishPath now sd).records
          item.key with
        | some r => r
        | none =>
          build_error_record item.entry
            (match dfind (finalMaps oracle teams (some (some items)) publishPath now sd).errors
                item.key with
             | some ctx2 => ctx2.message
             | none => "Unknown error")) := by
    unfold bulkResults assemble
    rw [List.getElem?_map, hitem]
    rfl
  refine ⟨?_, stampFallback_fields prior publishPath now sd⟩
  rw [hres, hkey, hrecv]

/-- Witness for C2: Team2 fails every round, the published snapshot holds
a prior record for t2, and the output position receives the stamped copy
with the prior stats. -/
theorem bulk_fallback_provenance_witness :
    dfind (mapsAfterRetries oracleFail none [entryTeam2]).errors "t2::c2" =
      some { entry := entryTeam2, index := 1, message := "Team2: network down" } ∧
    (bulkResults oracleFail [entryTeam2] (some (some [priorTeam2])) "pub.json" "now" none)[0]? =
      some (stampFallback priorTeam2 "pub.json" "now" none) ∧
    (stampFallback priorTeam2 "pub.json" "now" none).stats = priorTeam2.stats := by
  have herr : dfind (mapsAfterRetries oracleFail none [entryTeam2]).errors "t2::c2" =
      some { entry := entryTeam2, index := 1, message := "Team2: network down" } := by decide
  have h := bulk_fallback_provenance oracleFail [entryTeam2] [priorTeam2] "pub.json" "now" none
    "t2::c2" { entry := entryTeam2, index := 1, message := "Team2: network down" } "t2"
    priorTeam2 0 { key := "t2::c2", entry := entryTeam2, index := 1 }
    herr (by decide) (by decide) (by decide) (by decide)
  exact ⟨herr, h.1, h.2.1⟩

/-! ### Claim C5: configuration errors (amended) -/

/-- A config entry with a falsy teamId or compId fails fast in every
round with the fixed message, independently of the upstream client. -/
theorem fetch_missing_id (oracle : Oracle) (round : Nat) (e : Entry) (index : Nat)
    (h : truthy e.teamId = none ∨ truthy e.compId = none) :
    fetch_team_record oracle round e index = Except.error "Missing teamId or compId" := by
  rcases h with h | h
  · simp [fetch_team_record, h]
  · cases ht : truthy e.teamId <;> simp [fetch_team_record, h, ht]

/-- An entry that never builds reduces to its fallback resolution with
the configuration-error message. -/
theorem producedFor_missing_id (oracle : Oracle)
    (publish : Option (Option (List SnapRecord))) (publishPath now : String)
    (sd : Option String) (e : Entry) (index : Nat)
    (h : truthy e.teamId = none ∨ truthy e.compId = none) :
    producedFor oracle publish publishPath now sd e index =
      fallbackFor publish publishPath now sd e "Missing teamId or compId" := by
  simp [producedFor, roundFetch, fetch_missing_id oracle 0 e index h,
    fetch_missing_id oracle 1 e index h, fetch_missing_id oracle 2 e index h]

/-- C5 (amended).  For a config entry missing teamId or compId: the build
fails fast with a not-ok result carrying the fixed message in every round
and for every client behaviour (so no fetch is ever attempted for it);
under distinct composite keys it surfaces in the final output as an
ErrorRecord when its teamId is falsy, or when the published snapshot path
does not exist — but when its teamId is truthy and the published
fallback map of the published snapshot holds that teamId, it surfaces as a
fallback-sourced record instead of an ErrorRecord. -/
theorem config_error_handling (oracle : Oracle) (teams : List Entry)
    (publishPath now : String) (sd : Option String) (i : Nat) (e : Entry)
    (h : truthy e.teamId = none ∨ truthy e.compId = none)
    (hnd : (orderedKeys teams).Nodup) (he : teams[i]? = some e) :
    (∀ oracle2 : Oracle, ∀ round index : Nat,
      fetch_team_record oracle2 round e index = Except.error "Missing teamId or compId") ∧
    (truthy e.teamId = none → ∀ publish : Option (Option (List SnapRecord)),
      (bulkResults oracle teams publish publishPath now sd)[i]? =
        some (build_error_record e "Missing teamId or compId")) ∧
    ((bulkResults oracle teams none publishPath now sd)[i]? =
      some (build_error_record e "Missing teamId or compId")) ∧
    (∀ items : List SnapRecord, ∀ tid : String, ∀ prior : SnapRecord,
      truthy e.teamId = some tid → dfind (fallbackMapOf items) tid = some prior →
      (bulkResults oracle teams (some (some items)) publishPath now sd)[i]? =
        some (stampFallback prior publishPath now sd)) := by
  refine ⟨fun oracle2 round index => fetch_missing_id oracle2 round e index h, ?_, ?_, ?_⟩
  · intro ht publish
    rw [bulk_correspond oracle teams publish publishPath now sd hnd i e he,
      producedFor_missing_id oracle publish publishPath now sd e (1 + i) h]
    cases publish with
    | none => rfl
    | some parsed =>
      by_cases hf : (fallbackMapOf (parsed.getD [])).isEmpty
      · simp [fallbackFor, hf]
      · simp [fallbackFor, hf, ht]
  · rw [bulk_correspond oracle teams none publishPath now sd hnd i e he,
      producedFor_missing_id oracle none publishPath now sd e (1 + i) h]
    rfl
  · intro items tid prior ht hp
    rw [bulk_correspond oracle teams (some (some items)) publishPath now sd hnd i e he,
      producedFor_missing_id oracle (some (some items)) publishPath now sd e (1 + i) h]
    have hfne : (fallbackMapOf items).isEmpty = false := dfind_ne_nil _ _ _ hp
    simp [fallbackFor, hfne, ht, hp]

/-- Counterexample to C5 as stated: the entry has a teamId but no compId,
the build fails fast, yet the published snapshot holds teamId t1, so the
final record is a fallback-sourced TeamRecord (error = none,
meta.source = "fallback"), not an ErrorRecord. -/
theorem config_error_counterexample :
    (bulkResults oracleFail [entryNoComp] (some (some [priorTeam1])) "pub.json" "ts" none)[0]? =
      some (stampFallback priorTeam1 "pub.json" "ts" none) ∧
    (stampFallback priorTeam1 "pub.json" "ts" none).error = none ∧
    (stampFallback priorTeam1 "pub.json" "ts" none).meta.map RecordMeta.source =
      some (some "fallback") := by
  decide

/-- Witness for C5 (amended): a no-identifier entry fails fast and ends
as an ErrorRecord; a teamId-only entry with a fallback hit ends as the
stamped fallback record. -/
theorem config_error_handling_witness :
    fetch_team_record oracleOkBlank 0 entryNoIds 1 =
      Except.error "Missing teamId or compId" ∧
    (bulkResults oracleOkBlank [entryNoIds] none "pub.json" "now" none)[0]? =
      some (build_error_record entryNoIds "Missing teamId or compId") ∧
    (bulkResults oracleFail [entryNoComp] (some (some [priorTeam1])) "pub.json" "now" none)[0]? =
      some (stampFallback priorTeam1 "pub.json" "now" none) := by
  have h1 := config_error_handling oracleOkBlank [entryNoIds] "pub.json" "now" none 0
    entryNoIds (Or.inl rfl) (by decide) (by decide)
  have h2 := config_error_handling oracleFail [entryNoComp] "pub.json" "now" none 0
    entryNoComp (Or.inr rfl) (by decide) (by decide)
  exact ⟨h1.1 oracleOkBlank 0 1, h1.2.1 rfl none,
    h2.2.2.2 [priorTeam1] "t1" priorTeam1 rfl (by decide)⟩

/-! ### Claim C6: rate-limited client retry behaviour -/

/-- C6.  With the fixed retry ceiling of 4: when every attempt returns
429 the underlying HTTP error is surfaced after the fourth attempt, with
one backoff window scheduled per 429; when attempt k is the first
non-429 response, an HTTP error status in [400, 600) is surfaced
immediately at attempt k with no further retry, and a non-error status
succeeds at attempt k, having scheduled one backoff window per preceding
429 plus the base rate-limit window.  These cases are exhaustive, so the
call raises exactly in cases (a) and (b) of the claim. -/
theorem rate_limited_get_spec (responses : Nat → HttpResponse) (rate_limit_ms : Nat) :
    ((∀ a, 1 ≤ a → a ≤ 4 → (responses a).status = 429) →
      GMSClient_get responses rate_limit_ms 4 =
        GetResult.httpError 429 4 (backoffList responses rate_limit_ms 4)) ∧
    (∀ k, 1 ≤ k → k ≤ 4 → (∀ a, 1 ≤ a → a < k → (responses a).status = 429) →
      (responses k).status ≠ 429 →
      ((isHttpErrorStatus (responses k).status = true →
        GMSClient_get responses rate_limit_ms 4 =
          GetResult.httpError (responses k).status k
            (backoffList responses rate_limit_ms (k - 1))) ∧
       (isHttpErrorStatus (responses k).status = false →
        GMSClient_get responses rate_limit_ms 4 =
          GetResult.success k
            (backoffList responses rate_limit_ms (k - 1) ++ [rate_limit_ms])))) := by
  constructor
  · intro h
    have h1 := h 1 (by omega) (by omega)
    have h2 := h 2 (by omega) (by omega)
    have h3 := h 3 (by omega) (by omega)
    have h4 := h 4 (by omega) (by omega)
    simp [GMSClient_get, get_go, h1, h2, h3, h4, backoffList, List.range']
  · intro k hk1 hk4 hprior hne
    interval_cases k
    · constructor
      · intro herr
        simp [GMSClient_get, get_go, hne, herr, backoffList, List.range']
      · intro hsucc
        simp [GMSClient_get, get_go, hne, hsucc, backoffList, List.range']
    · have h1 := hprior 1 (by omega) (by omega)
      constructor
      · intro herr
        simp [GMSClient_get, get_go, h1, hne, herr, backoffList, List.range']
      · intro hsucc
        simp [GMSClient_get, get_go, h1, hne, hsucc, backoffList, List.range']
    · have h1 := hprior 1 (by omega) (by omega)
      have h2 := hprior 2 (by omega) (by omega)
      constructor
      · intro herr
        simp [GMSClient_get, get_go, h1, h2, hne, herr, backoffList, List.range']
      · intro hsucc
        simp [GMSClient_get, get_go, h1, h2, hne, hsucc, backoffList, List.range']
    · have h1 := hprior 1 (by omega) (by omega)
      have h2 := hprior 2 (by omega) (by omega)
      have h3 := hprior 3 (by omega) (by omega)
      constructor
      · intro herr
        simp [GMSClient_get, get_go, h1, h2, h3, hne, herr, backoffList, List.range']
      · intro hsucc
        simp [GMSClient_get, get_go, h1, h2, h3, hne, hsucc, backoffList, List.range']

/-- Witness for C6 with the default 1200 ms base: four 429s exhaust the
ceiling with exponential backoffs; a 500 at attempt 2 surfaces
immediately after the Retry-After 7 backoff; a success at attempt 3
follows two backoffs and one base window. -/
theorem rate_limited_get_spec_witness :
    GMSClient_get respAll429 1200 4 = GetResult.httpError 429 4 [2400, 4800, 9600, 19200] ∧
    GMSClient_get respErrorAt2 1200 4 = GetResult.httpError 500 2 [7000] ∧
    GMSClient_get respOkAt3 1200 4 = GetResult.success 3 [2400, 4800, 1200] := by
  refine ⟨?_, ?_, ?_⟩
  · have h := (rate_limited_get_spec respAll429 1200).1
      (fun a h1 h4 => by interval_cases a <;> rfl)
    rwa [show backoffList respAll429 1200 4 = [2400, 4800, 9600, 19200] from rfl] at h
  · have h := ((rate_limited_get_spec respErrorAt2 1200).2 2 (by omega) (by omega)
      (fun a h1 h2 => by interval_cases a; rfl) (by decide)).1 (by decide)
    rwa [show backoffList respErrorAt2 1200 1 = [7000] by decide] at h
  · have h := ((rate_limited_get_spec respOkAt3 1200).2 3 (by omega) (by omega)
      (fun a h1 h3 => by interval_cases a <;> rfl) (by decide)).2 (by decide)
    rwa [show backoffList respOkAt3 1200 2 ++ [1200] = [2400, 4800, 1200] from rfl] at h

/-! ### Claim C8: weekend window scenario -/

/-- C8.  With "today" = Sunday 2025-11-30T10:00Z the window anchors to
Saturday 2025-11-29 00:00Z and expands two hours on each side, giving
[2025-11-28T22:00Z, 2025-12-01T02:00Z); and a fixture is retained from
the filter exactly when it is not a kids fixture, has no TBC kickoff,
and its datetime lies in the window (inclusive start, exclusive end). -/
theorem weekend_filter_window :
    weekend_window sundayNov30at10 = (windowStartNov28, windowEndDec01) ∧
    ∀ f : Fixture, filter_weekend_fixtures sundayNov30at10 [f] = [f] ↔
      (is_kids_fixture f = false ∧ has_tbc_kickoff f = false ∧
       windowStartNov28 ≤ f.date ∧ f.date < windowEndDec01) := by
  have hw : weekend_window sundayNov30at10 = (windowStartNov28, windowEndDec01) := by decide
  refine ⟨hw, ?_⟩
  intro f
  by_cases h1 : is_kids_fixture f <;> by_cases h2 : has_tbc_kickoff f <;>
    by_cases h3 : windowStartNov28 ≤ f.date <;> by_cases h4 : f.date < windowEndDec01 <;>
    simp [filter_weekend_fixtures, hw, List.filter, h1, h2, h3, h4]

/-- Witness for C8: the Saturday 15:00 fixture (adult division, fixed
kickoff) is retained. -/
theorem weekend_filter_window_witness :
    fixtureSat.date = saturdayNov29at15 ∧
    filter_weekend_fixtures sundayNov30at10 [fixtureSat] = [fixtureSat] := by
  refine ⟨rfl, ?_⟩
  exact (weekend_filter_window.2 fixtureSat).mpr (by decide)

/-! ### Claim C9: load_fallback_map totality (amended) -/

/-- The indexing loop succeeds on any list of JSON objects. -/
theorem loadItems_all_obj (items : List JVal) (acc : List (JVal × JVal))
    (h : ∀ x ∈ items, isJObj x = true) : ∃ m, loadItems items acc = Except.ok m := by
  induction items generalizing acc with
  | nil => exact ⟨acc, rfl⟩
  | cons x rest ih =>
    have hx := h x (List.mem_cons_self x rest)
    have hrest : ∀ y ∈ rest, isJObj y = true :=
      fun y hy => h y (List.mem_cons_of_mem x hy)
    cases x with
    | obj fields =>
      cases hb : jtruthy ((jlookup fields "teamId").getD JVal.null) with
      | true =>
        simp only [loadItems, hb, if_true]
        exact ih _ hrest
      | false =>
        simp only [loadItems, hb, Bool.false_eq_true, if_false]
        exact ih _ hrest
    | null => simp [isJObj] at hx
    | bool b => simp [isJObj] at hx
    | num n => simp [isJObj] at hx
    | str s => simp [isJObj] at hx
    | arr elements => simp [isJObj] at hx

/-- C9 (amended).  load_fallback_map returns the empty map when the file
is missing or its contents cannot be parsed as JSON, and returns a map
without raising whenever the parsed content is a JSON array of objects;
it is not total on arbitrary JSON (see the counterexample), so the
fallback-resolution step cannot abort on a missing or unparseable
snapshot, but can on a parseable one of the wrong shape. -/
theorem load_fallback_map_amended :
    (load_fallback_map none = Except.ok []) ∧
    (load_fallback_map (some none) = Except.ok []) ∧
    (∀ items : List JVal, (∀ x ∈ items, isJObj x = true) →
      ∃ m, load_fallback_map (some (some (JVal.arr items))) = Except.ok m) := by
  refine ⟨rfl, rfl, ?_⟩
  intro items h
  simp only [load_fallback_map, pyIter]
  exact loadItems_all_obj items [] h

/-- Counterexample to C9 as stated: a file whose contents parse as the
JSON number 5 makes load_fallback_map raise TypeError (the for loop
iterates a non-iterable), so the function is not exception-free on every
existing file. -/
theorem load_fallback_map_counterexample :
    load_fallback_map (some (some (JVal.num 5))) =
      Except.error "TypeError: object is not iterable" := rfl

/-- Witness for C9 (amended): a one-object array indexes fine. -/
theorem load_fallback_map_amended_witness :
    (∀ x ∈ [JVal.obj [("teamId", JVal.str "t1")]], isJObj x = true) ∧
    ∃ m, load_fallback_map
      (some (some (JVal.arr [JVal.obj [("teamId", JVal.str "t1")]]))) = Except.ok m := by
  have hx : ∀ x ∈ [JVal.obj [("teamId", JVal.str "t1")]], isJObj x = true := by
    intro x hxm
    rw [List.mem_singleton] at hxm
    subst hxm
    rfl
  exact ⟨hx, load_fallback_map_amended.2.2 _ hx⟩
